import Mathlib

/-!
Verification of the Kanban-Board storage core (`src/core.ts`, `src/storage.ts`).

Text is embedded as `List Char` (`Str`), so that every JavaScript string
operation used by the source (split on `/\r?\n/`, `trim`, `indexOf`,
`slice`, concatenation) has a direct, executable counterpart.  JSON values
are embedded as the inductive `Json`; the filesystem consumed through the
`FileSystem` capability is embedded as an explicit `Store` state, and each
storage operation becomes a function `… → Store → Except Str Unit × Store`
(the state is returned even on failure, because in the source a self-healing
index read may write before a later validation error is thrown).
-/

namespace Kanban

/-- Text, embedded as a list of characters. -/
abbrev Str := List Char

/-- Coerce a Lean string literal to `Str`. -/
def txt (s : String) : Str := s.data

/-- Whitespace recognized by JavaScript `String.prototype.trim`
(ASCII whitespace, NBSP and the BOM). -/
def isWS (c : Char) : Bool :=
  c == ' ' || c == '\t' || c == '\n' || c == '\r' ||
  c == '\x0b' || c == '\x0c' || c == ' ' || c == '﻿'

/-- JavaScript `s.trim()`. -/
def trimL (s : Str) : Str :=
  ((s.dropWhile isWS).reverse.dropWhile isWS).reverse

/-- JavaScript `s.split(/\r?\n/)`: a line break is `"\r\n"` or `"\n"`;
a carriage return not followed by a newline stays inside its line. -/
def splitLines : Str → List Str
  | [] => [[]]
  | '\r' :: '\n' :: rest => [] :: splitLines rest
  | '\n' :: rest => [] :: splitLines rest
  | c :: rest =>
    match splitLines rest with
    | [] => [[c]]
    | l :: ls => (c :: l) :: ls

/-- JavaScript `Array.prototype.join` with a one-character separator. -/
def joinLines (sep : Char) : List Str → Str
  | [] => []
  | [l] => l
  | l :: ls => l ++ sep :: joinLines sep ls

/-- Whether the text contains a CRLF pair (the only pattern that
`split(/\r?\n/)` then `join("\n")` does not restore verbatim). -/
def hasCRLF : Str → Bool
  | '\r' :: '\n' :: _ => true
  | _ :: rest => hasCRLF rest
  | [] => false

/-- A metadata mapping: keys in insertion order, each key at most once,
`none` standing for the JavaScript `null` value. -/
abbrev Meta := List (Str × Option Str)

/-- `meta[key]` (JavaScript property read on the metadata object):
`none` when the key is absent. -/
def metaLookup (m : Meta) (k : Str) : Option (Option Str) :=
  (m.find? (·.1 == k)).map (·.2)

/-- `meta[key] = value` on a JavaScript object: replace in place when the
key exists (object keys are unique, so at most one entry matches), append
otherwise. -/
def metaInsert : Meta → Str → Option Str → Meta
  | [], k, v => [(k, v)]
  | p :: rest, k, v =>
    if p.1 = k then (k, v) :: rest else p :: metaInsert rest k v

/-- One iteration of the metadata-line loop of `parseFrontMatter`:
skip blank lines, skip lines without `':'`, skip lines whose trimmed key
is empty, decode empty or literal `null` values to the null value. -/
def parseMetaLine (m : Meta) (line : Str) : Meta :=
  if trimL line = [] then m
  else
    match line.findIdx? (· == ':') with
    | none => m
    | some i =>
      let key := trimL (line.take i)
      let value := trimL (line.drop (i + 1))
      if key = [] then m
      else metaInsert m key
        (if value = [] ∨ value = txt "null" then none else some value)

structure ParsedDoc where
  meta : Meta
  body : Str
deriving DecidableEq

/-- `parseFrontMatter` from `core.ts`: a leading block delimited by lines
equal to `---`, otherwise the whole input is the body. -/
def parseFrontMatter (content : Str) : ParsedDoc :=
  match splitLines content with
  | [] => ⟨[], content⟩
  | first :: rest =>
    if first ≠ txt "---" then ⟨[], content⟩
    else
      match rest.findIdx? (· == txt "---") with
      | none => ⟨[], content⟩
      | some i =>
        ⟨(rest.take i).foldl parseMetaLine [],
         joinLines '\n' (rest.drop (i + 1))⟩

/-- The fixed preferred key order of `serializeFrontMatter`. -/
def knownKeys : List Str :=
  [txt "id", txt "title", txt "due", txt "createdAt", txt "updatedAt"]

/-- One serialized metadata line: `` `${key}: ${value ?? "null"}` ``. -/
def fmtLine (k : Str) (v : Option Str) : Str :=
  k ++ ':' :: ' ' :: v.getD (txt "null")

/-- `serializeFrontMatter` from `core.ts`: delimiter, known keys present in
the mapping in the preferred order, remaining keys in mapping order,
delimiter, body, all joined with `"\n"`. -/
def serializeFrontMatter (m : Meta) (body : Str) : Str :=
  let kLines := knownKeys.filterMap fun k => (metaLookup m k).map (fmtLine k)
  let rLines := (m.filter fun p => !(knownKeys.contains p.1)).map
    fun p => fmtLine p.1 p.2
  joinLines '\n' (txt "---" :: (kLines ++ rLines) ++ [txt "---", body])

/-- `firstNonEmptyLine` from `core.ts`. -/
def firstNonEmptyLine (text : Str) : Option Str :=
  (splitLines text).findSome? fun l =>
    let t := trimL l
    if t ≠ [] then some t else none

/-! ### `ensureUniqueColumnId` -/

/-- The decimal digit list of a natural number, as printed by JavaScript
string interpolation (and by Lean's `Nat.repr`). -/
def natDigits (n : Nat) : Str := Nat.toDigits 10 n

/-- The candidate sequence tried by `ensureUniqueColumnId`'s `while` loop:
the base id itself, then `` `${baseId}-${counter}` `` for `counter = 1, 2, …`. -/
def candidate (baseId : Str) : Nat → Str
  | 0 => baseId
  | n + 1 => baseId ++ '-' :: natDigits (n + 1)

/-- The `while` loop of `ensureUniqueColumnId`: starting at candidate
index `k`, return the first index whose candidate is not taken.  The fuel
argument is only there to make the recursion structural; `candidate_spec`
below shows that `existing.length + 1` steps always suffice, so the
fuel-exhausted branch is unreachable from `ensureUniqueColumnId`. -/
def findFree (existing : List Str) (baseId : Str) : Nat → Nat → Nat
  | 0, k => k
  | fuel + 1, k =>
    if candidate baseId k ∈ existing then findFree existing baseId fuel (k + 1)
    else k

structure Column where
  id : Str
  title : Str
deriving DecidableEq

/-- `ensureUniqueColumnId` from `core.ts`. -/
def ensureUniqueColumnId (columns : List Column) (baseId : Str) : Str :=
  let existing := columns.map (·.id)
  candidate baseId (findFree existing baseId (existing.length + 1) 0)

/-! ### JSON values and the index normalizer -/

/-- A JSON value (what `JSON.parse` can produce). -/
inductive Json where
  | null
  | bool (b : Bool)
  | num (n : Int)
  | str (s : Str)
  | arr (elems : List Json)
  | obj (fields : List (Str × Json))

/-- The canonical array-index reading of a property key, if any
(`"0"`, `"1"`, …, no leading zeros). -/
def decodeIdx (k : Str) : Option Nat :=
  if k ≠ [] ∧ k.all (·.isDigit) ∧ (k = ['0'] ∨ k.head? ≠ some '0') then
    some (k.foldl (fun a c => a * 10 + (c.toNat - 48)) 0)
  else none

/-- JavaScript property read `target[key]` for a non-null target, as far as
the core observes it: an own field of an object, or an element of an array
under a canonical index key.  Every other read (prototype properties,
string indexing, reads on primitives) yields a value that the core only
ever feeds to `Array.isArray` or `typeof · === "string"` tests that fail,
so it is collapsed to `none` (undefined). -/
def jsGet : Json → Str → Option Json
  | .obj fields, k => (fields.find? (·.1 == k)).map (·.2)
  | .arr xs, k =>
    match decodeIdx k with
    | some i => xs.get? i
    | none => none
  | _, _ => none

/-- JavaScript truthiness of a JSON value. -/
def jsTruthy : Json → Bool
  | .null => false
  | .bool b => b
  | .num n => n != 0
  | .str s => s != []
  | _ => true

/-- The element test of `normalizeIndex`: `column && typeof column.id ===
"string" && typeof column.title === "string"`, keeping `{id, title}`. -/
def parseColumnJ (j : Json) : Option Column :=
  if jsTruthy j then
    match jsGet j (txt "id"), jsGet j (txt "title") with
    | some (.str i), some (.str t) => some ⟨i, t⟩
    | _, _ => none
  else none

/-- An order record: per-column card-id lists, keys in insertion order. -/
abbrev OrderMap := List (Str × List Str)

/-- `order[key]` on the order record. -/
def ordGet (m : OrderMap) (k : Str) : Option (List Str) :=
  (m.find? (·.1 == k)).map (·.2)

/-- `order[key] = value` on the order record: replace in place when the
key exists (object keys are unique, so at most one entry matches), append
otherwise. -/
def ordSet : OrderMap → Str → List Str → OrderMap
  | [], k, v => [(k, v)]
  | p :: rest, k, v =>
    if p.1 = k then (k, v) :: rest else p :: ordSet rest k v

/-- `delete order[key]`. -/
def ordDelete (m : OrderMap) (k : Str) : OrderMap :=
  m.filter (·.1 != k)

structure IndexData where
  columns : List Column
  order : OrderMap
deriving DecidableEq

def DEFAULT_COLUMNS : List Column :=
  [⟨txt "todo", txt "TODO"⟩, ⟨txt "doing", txt "Doing"⟩,
   ⟨txt "done", txt "Done"⟩]

/-- The per-column order list extracted by `normalizeIndex`:
`Array.isArray(rawOrder[id]) ? rawOrder[id].filter(typeof string) : []`,
where `rawOrder = raw.order ?? {}`. -/
def normalizeOrderList (raw : Json) (cid : Str) : List Str :=
  match jsGet raw (txt "order") with
  | some .null => []
  | some o =>
    match jsGet o cid with
    | some (.arr ys) =>
      ys.filterMap fun y => match y with | .str s => some s | _ => none
    | _ => []
  | none => []

/-- The column selection of `normalizeIndex`: keep the well-formed
entries of a non-empty `raw.columns` array, fall back to the default
column set otherwise. -/
def normalizeColumns (raw : Json) : List Column :=
  match jsGet raw (txt "columns") with
  | some (.arr xs) =>
    if xs.length > 0 then
      let parsed := xs.filterMap parseColumnJ
      if parsed.length > 0 then parsed else DEFAULT_COLUMNS
    else DEFAULT_COLUMNS
  | _ => DEFAULT_COLUMNS

/-- `normalizeIndex` from `core.ts`, over an arbitrary JSON value.
Reading `raw.columns` on the JavaScript `null` value throws a `TypeError`;
that outcome is `none`.  Every other input normalizes. -/
def normalizeIndex (raw : Json) : Option IndexData :=
  match raw with
  | .null => none
  | _ =>
    let columns := normalizeColumns raw
    some
      { columns
        order := columns.foldl
          (fun o c => ordSet o c.id (normalizeOrderList raw c.id)) [] }

/-! ### The storage state -/

inductive EntryKind where
  | file
  | dir
deriving DecidableEq

/-- One entry of the cards directory: its kind, its text content and its
creation/modification timestamps in epoch milliseconds. -/
structure DirEntry where
  kind : EntryKind
  content : Str
  ctime : Int
  mtime : Int
deriving DecidableEq

/-- The persisted index file: absent, present but not valid JSON, or a
JSON value. -/
inductive FileContent where
  | invalid
  | json (j : Json)

/-- The filesystem slice the storage engine touches: the index file and
the cards directory. -/
structure Store where
  index : Option FileContent
  files : List (Str × DirEntry)

structure CardData where
  id : Str
  title : Str
  detail : Str
  due : Option Str
  createdAt : Str
  updatedAt : Str
deriving DecidableEq

structure StatePayload where
  columns : List Column
  order : OrderMap
  cards : List (Str × CardData)

def jsonOfColumn (c : Column) : Json :=
  .obj [(txt "id", .str c.id), (txt "title", .str c.title)]

/-- The JSON value that `JSON.parse` recovers from
`JSON.stringify` of an index. -/
def jsonOfIndex (idx : IndexData) : Json :=
  .obj [(txt "columns", .arr (idx.columns.map jsonOfColumn)),
        (txt "order", .obj (idx.order.map fun p => (p.1, .arr (p.2.map .str))))]

/-- `writeIndex`: overwrite the index file with the serialized document. -/
def writeIndexS (s : Store) (idx : IndexData) : Store :=
  { s with index := some (.json (jsonOfIndex idx)) }

/-- `normalizeIndex({})`, the self-healing fallback index of `readIndex`. -/
def healedIndex : IndexData := (normalizeIndex (.obj [])).getD ⟨[], []⟩

/-- `readIndex`: decode and normalize the index file; on any failure
(missing file, invalid JSON, or the `TypeError` thrown by normalizing the
JSON `null` value) persist and return `normalizeIndex({})`. -/
def readIndexS (s : Store) : IndexData × Store :=
  match s.index with
  | some (.json j) =>
    match normalizeIndex j with
    | some idx => (idx, s)
    | none => (healedIndex, writeIndexS s healedIndex)
  | _ => (healedIndex, writeIndexS s healedIndex)

/-- The card file name `` `${cardId}.md` ``. -/
def mdName (cardId : Str) : Str := cardId ++ txt ".md"

def readEntry (s : Store) (name : Str) : Option DirEntry :=
  (s.files.find? (·.1 == name)).map (·.2)

/-- Zero-padded decimal. -/
def padNat (w n : Nat) : Str :=
  List.replicate (w - (natDigits n).length) '0' ++ natDigits n

/-- `new Date(ms).toISOString()`: Gregorian civil date from the day
number (Howard Hinnant's algorithm, which is what ECMAScript's date
arithmetic computes), then `YYYY-MM-DDTHH:mm:ss.sssZ`.  The out-of-range
`Invalid Date` failure (|ms| > 8.64e15) is not modeled. -/
def isoOfMillis (ms : Int) : Str :=
  let day : Int := 86400000
  let d : Int := ms.ediv day
  let msod : Nat := (ms.emod day).toNat
  let z : Int := d + 719468
  let era : Int := z.ediv 146097
  let doe : Nat := (z.emod 146097).toNat
  let yoe : Nat := (doe - doe / 1460 + doe / 36524 - doe / 146096) / 365
  let y : Int := (yoe : Int) + era * 400
  let doy : Nat := doe - (365 * yoe + yoe / 4 - yoe / 100)
  let mp : Nat := (5 * doy + 2) / 153
  let dom : Nat := doy - (153 * mp + 2) / 5 + 1
  let month : Nat := if mp < 10 then mp + 3 else mp - 9
  let year : Int := if month ≤ 2 then y + 1 else y
  let yearStr : Str :=
    if 0 ≤ year ∧ year ≤ 9999 then padNat 4 year.toNat
    else if year < 0 then '-' :: padNat 6 (-year).toNat
    else '+' :: padNat 6 year.toNat
  yearStr ++ '-' :: padNat 2 month ++ '-' :: padNat 2 dom ++
    'T' :: padNat 2 (msod / 3600000) ++ ':' :: padNat 2 (msod % 3600000 / 60000) ++
    ':' :: padNat 2 (msod % 60000 / 1000) ++ '.' :: padNat 3 (msod % 1000) ++ ['Z']

/-- `loadCard`: read and decode one card file, `none` on any read failure. -/
def loadCard (s : Store) (cardId : Str) : Option CardData :=
  match readEntry s (mdName cardId) with
  | some e =>
    if e.kind = .file then
      let parsed := parseFrontMatter e.content
      let meta := parsed.meta
      let detail := parsed.body
      let title :=
        match metaLookup meta (txt "title") with
        | some (some t) =>
          if trimL t ≠ [] then t
          else (firstNonEmptyLine detail).getD (txt "Untitled")
        | _ => (firstNonEmptyLine detail).getD (txt "Untitled")
      let createdAt :=
        match metaLookup meta (txt "createdAt") with
        | some (some c) => if c ≠ [] then c else isoOfMillis e.ctime
        | _ => isoOfMillis e.ctime
      let updatedAt :=
        match metaLookup meta (txt "updatedAt") with
        | some (some u) => if u ≠ [] then u else isoOfMillis e.mtime
        | _ => isoOfMillis e.mtime
      let due : Option Str :=
        match metaLookup meta (txt "due") with
        | some (some d) => some d
        | _ => none
      some ⟨cardId, title, detail, due, createdAt, updatedAt⟩
    else none
  | none => none

/-- Deduplication keeping first occurrences — the observable content of a
JavaScript `Set` built then iterated in insertion order. -/
def dedupF : List Str → List Str
  | [] => []
  | x :: xs => x :: (dedupF xs).filter (fun y => y != x)

/-- The discovered card-id set of `readState`: directory entries of file
kind whose name ends in `.md`, with the suffix stripped. -/
def cardFileIdsOf (files : List (Str × DirEntry)) : List Str :=
  dedupF ((files.filter fun e =>
      e.2.kind == .file && (txt ".md").isSuffixOf e.1).map
    fun e => e.1.take (e.1.length - (txt ".md").length))

/-- One column of `readState`'s reconciliation loop: filter the column's
order list to discovered ids, record whether anything was dropped, and
accumulate the kept ids (the "already ordered" set). -/
def readStateStep (idx : IndexData) (fileIds : List Str)
    (acc : OrderMap × Bool × List Str) (c : Column) :
    OrderMap × Bool × List Str :=
  let origList := (ordGet idx.order c.id).getD []
  let kept := origList.filter fun id => fileIds.contains id
  (ordSet acc.1 c.id kept,
   acc.2.1 || !(origList.all fun id => fileIds.contains id),
   acc.2.2 ++ kept)

/-- `readState`: reconcile the index against the card files, persist the
repair when anything changed, then load the cards. -/
def readStateS (s : Store) : StatePayload × Store :=
  let (index, s1) := readIndexS s
  let fileIds := cardFileIdsOf s1.files
  let (order0, changed0, orderedIds) :=
    index.columns.foldl (readStateStep index fileIds) ([], false, [])
  let fallbackColumnId := (index.columns.head?.map (·.id)).getD (txt "todo")
  let unordered := fileIds.filter fun id => !(orderedIds.contains id)
  let order1 := unordered.foldl
    (fun o id =>
      ordSet o fallbackColumnId (((ordGet o fallbackColumnId).getD []) ++ [id]))
    order0
  let changed := changed0 || !unordered.isEmpty
  let s2 := if changed then writeIndexS s1 ⟨index.columns, order1⟩ else s1
  let allIds :=
    dedupF ((index.columns.map fun c => (ordGet order1 c.id).getD []).flatten)
  let cards := allIds.filterMap fun id => (loadCard s2 id).map fun cd => (id, cd)
  (⟨index.columns, order1, cards⟩, s2)

/-! ### Mutation operations -/

/-- Overwrite one directory entry, preserving the creation time of an
existing file and stamping the modification time (names in a directory
are unique, so at most one entry matches). -/
def writeEntryList : List (Str × DirEntry) → Str → Str → Int →
    List (Str × DirEntry)
  | [], name, content, nowMs => [(name, ⟨.file, content, nowMs, nowMs⟩)]
  | p :: rest, name, content, nowMs =>
    if p.1 = name then
      (p.1, { p.2 with content := content, mtime := nowMs }) :: rest
    else p :: writeEntryList rest name content nowMs

/-- Write one card file. -/
def writeCardFile (s : Store) (name content : Str) (nowMs : Int) : Store :=
  { s with files := writeEntryList s.files name content nowMs }

/-- Best-effort deletion of the given card ids' files. -/
def deleteCardFilesS (s : Store) (cardIds : List Str) : Store :=
  cardIds.foldl
    (fun st id => { st with files := st.files.filter (·.1 != mdName id) }) s

/-- The metadata rewrite of `updateCard`: spread the parsed metadata, then
set `id`, trimmed `title`, `due` (blank or missing becomes null),
`createdAt` (kept when a nonempty string is present, else `now`), and
`updatedAt = now`. -/
def updatedMeta (meta0 : Meta) (cardId title : Str) (due : Option Str)
    (now : Str) : Meta :=
  let m1 := metaInsert meta0 (txt "id") (some cardId)
  let m2 := metaInsert m1 (txt "title") (some (trimL title))
  let dueV : Option Str :=
    match due with
    | some d => if trimL d = [] then none else some d
    | none => none
  let m3 := metaInsert m2 (txt "due") dueV
  let createdV : Str :=
    match metaLookup m3 (txt "createdAt") with
    | some (some c) => if c ≠ [] then c else now
    | _ => now
  let m4 := metaInsert m3 (txt "createdAt") (some createdV)
  metaInsert m4 (txt "updatedAt") (some now)

/-- `updateCard`.  A JavaScript falsy check rejects a missing and an
empty-string card id alike; the pre-read failure aborts before any write. -/
def updateCardS (now : Str) (nowMs : Int) (data : Json) (s : Store) :
    Except Str Unit × Store :=
  match jsGet data (txt "cardId") with
  | some (.str cardId) =>
    if cardId = [] then (.error (txt "Missing card ID."), s)
    else
      let title := match jsGet data (txt "title") with
        | some (.str v) => v
        | _ => []
      let detail := match jsGet data (txt "detail") with
        | some (.str v) => v
        | _ => []
      let due : Option Str := match jsGet data (txt "due") with
        | some (.str v) => some v
        | _ => none
      if trimL title = [] then (.error (txt "Title is empty."), s)
      else
        match readEntry s (mdName cardId) with
        | some e =>
          if e.kind = .file then
            let meta := updatedMeta (parseFrontMatter e.content).meta
              cardId title due now
            (.ok (),
             writeCardFile s (mdName cardId) (serializeFrontMatter meta detail)
               nowMs)
          else (.error (txt "Card not found."), s)
        | none => (.error (txt "Card not found."), s)
  | _ => (.error (txt "Missing card ID."), s)

/-- `moveCard`: remove the id from the source list, then clamp the target
position against the destination list as it stands after that removal. -/
def moveCardS (data : Json) (s : Store) : Except Str Unit × Store :=
  let cardId? : Option Str := match jsGet data (txt "cardId") with
    | some (.str v) => some v
    | _ => none
  let fromColumnId? : Option Str := match jsGet data (txt "fromColumnId") with
    | some (.str v) => some v
    | _ => none
  let toColumnId? : Option Str := match jsGet data (txt "toColumnId") with
    | some (.str v) => some v
    | _ => none
  let toIndex? : Option Int := match jsGet data (txt "toIndex") with
    | some (.num v) => some v
    | _ => none
  match cardId?, fromColumnId?, toColumnId?, toIndex? with
  | some cardId, some fromColumnId, some toColumnId, some toIndex =>
    if cardId = [] ∨ fromColumnId = [] ∨ toColumnId = [] then
      (.error (txt "Missing move information."), s)
    else
      let (index, s1) := readIndexS s
      let fromList := (ordGet index.order fromColumnId).getD []
      let o1 := ordSet index.order fromColumnId
        (fromList.filter fun id => id != cardId)
      let toList := (ordGet o1 toColumnId).getD []
      let insertIndex : Int := max 0 (min toIndex (toList.length : Int))
      let o2 := ordSet o1 toColumnId
        (toList.take insertIndex.toNat ++ cardId :: toList.drop insertIndex.toNat)
      (.ok (), writeIndexS s1 ⟨index.columns, o2⟩)
  | _, _, _, _ => (.error (txt "Missing move information."), s)

/-- `reorderCards`: replace one column's order list wholesale, with no
existence filtering against the index's columns. -/
def reorderCardsS (data : Json) (s : Store) : Except Str Unit × Store :=
  let columnId? : Option Str := match jsGet data (txt "columnId") with
    | some (.str v) => some v
    | _ => none
  let orderedIds? : Option (List Str) := match jsGet data (txt "orderedIds") with
    | some (.arr xs) =>
      some (xs.filterMap fun x => match x with | .str v => some v | _ => none)
    | _ => none
  match columnId?, orderedIds? with
  | some columnId, some orderedIds =>
    if columnId = [] then (.error (txt "Missing reorder information."), s)
    else
      let (index, s1) := readIndexS s
      (.ok (),
       writeIndexS s1 ⟨index.columns, ordSet index.order columnId orderedIds⟩)
  | _, _ => (.error (txt "Missing reorder information."), s)

/-- The column permutation of `reorderColumns`: build a `Map` keyed by
column id, move the columns matched by `orderedIds` out in that order,
then append the remaining `Map` values in insertion order. -/
def mapInsertCol : List Column → Column → List Column
  | [], c => [c]
  | e :: rest, c => if e.id = c.id then c :: rest else e :: mapInsertCol rest c

/-- One iteration of `reorderColumns`'s loop over `orderedIds`: when the
id is still in the `Map` (its keys are unique by construction), move its
column to the output and delete the key; otherwise skip the id. -/
def reorderStep (acc : List Column × List Column) (id : Str) :
    List Column × List Column :=
  match acc.2.find? (·.id == id) with
  | some c => (acc.1 ++ [c], acc.2.filter (·.id != id))
  | none => acc

def reorderColumnsCore (columns : List Column) (orderedIds : List Str) :
    List Column :=
  let columnMap := columns.foldl mapInsertCol []
  let st := orderedIds.foldl reorderStep ([], columnMap)
  st.1 ++ st.2

/-- `reorderColumns` on the store. -/
def reorderColumnsS (data : Json) (s : Store) : Except Str Unit × Store :=
  match jsGet data (txt "orderedIds") with
  | some (.arr xs) =>
    let orderedIds := xs.filterMap fun x =>
      match x with | .str v => some v | _ => none
    let (index, s1) := readIndexS s
    (.ok (),
     writeIndexS s1 ⟨reorderColumnsCore index.columns orderedIds, index.order⟩)
  | _ => (.error (txt "Missing column order information."), s)

/-- `deleteColumn`: the last-column guard runs before the existence
check; on success remove the column and its order list, persist, then
delete the removed cards' files. -/
def deleteColumnS (data : Json) (s : Store) : Except Str Unit × Store :=
  match jsGet data (txt "columnId") with
  | some (.str columnId) =>
    if columnId = [] then (.error (txt "Missing column ID."), s)
    else
      let (index, s1) := readIndexS s
      if index.columns.length ≤ 1 then
        (.error (txt "Cannot delete the last column."), s1)
      else
        match index.columns.findIdx? (·.id == columnId) with
        | none => (.error (txt "Column not found."), s1)
        | some removeIndex =>
          let removedCards := (ordGet index.order columnId).getD []
          let s2 := writeIndexS s1
            ⟨index.columns.eraseIdx removeIndex, ordDelete index.order columnId⟩
          (.ok (), deleteCardFilesS s2 removedCards)
  | _ => (.error (txt "Missing column ID."), s)


/-- The destination list that `moveCard` clamps against: the source
column's list after removal when moving within one column, the untouched
destination list otherwise. -/
def moveDest (idx : IndexData) (cardId fromId toId : Str) : List Str :=
  if toId = fromId then
    ((ordGet idx.order fromId).getD []).filter (fun id => id != cardId)
  else (ordGet idx.order toId).getD []

/-- `Math.max(0, Math.min(toIndex, destLength))` of `moveCard`. -/
def moveClamp (idx : IndexData) (cardId fromId toId : Str) (toIndex : Int) :
    Int :=
  max 0 (min toIndex ((moveDest idx cardId fromId toId).length : Int))

/-! ### Lemmas and claims -/

section Lemmas

theorem ordGet_cons (p : Str × List Str) (rest : OrderMap) (k : Str) :
    ordGet (p :: rest) k = if p.1 = k then some p.2 else ordGet rest k := by
  by_cases h : p.1 = k <;> simp [ordGet, List.find?_cons, h]

theorem ordGet_ordSet_self (m : OrderMap) (k : Str) (v : List Str) :
    ordGet (ordSet m k v) k = some v := by
  induction m with
  | nil => simp [ordSet, ordGet]
  | cons p rest ih =>
    by_cases h : p.1 = k
    · simp [ordSet, h, ordGet_cons]
    · simp [ordSet, h, ordGet_cons, ih]

theorem ordGet_ordSet_ne (m : OrderMap) (k k' : Str) (v : List Str)
    (h : k' ≠ k) : ordGet (ordSet m k v) k' = ordGet m k' := by
  induction m with
  | nil => simp [ordSet, ordGet, Ne.symm h]
  | cons p rest ih =>
    by_cases hp : p.1 = k
    · subst hp
      simp [ordSet, ordGet_cons, Ne.symm h]
    · simp [ordSet, hp, ordGet_cons, ih]

theorem ordGet_isSome_ordSet (m : OrderMap) (k k' : Str) (v : List Str) :
    (ordGet (ordSet m k v) k').isSome ↔ k' = k ∨ (ordGet m k').isSome := by
  by_cases h : k' = k
  · subst h; simp [ordGet_ordSet_self]
  · simp [ordGet_ordSet_ne m k k' v h, h]

theorem ordGet_isSome_iff_mem (m : OrderMap) (k : Str) :
    (ordGet m k).isSome ↔ k ∈ m.map Prod.fst := by
  induction m with
  | nil => simp [ordGet]
  | cons p rest ih =>
    by_cases h : p.1 = k
    · simp [ordGet_cons, h]
    · simp [ordGet_cons, h, ih, Ne.symm h]

theorem ordKeys_fold (cols : List Column) (f : Str → List Str)
    (m0 : OrderMap) (k : Str) :
    (ordGet (cols.foldl (fun o c => ordSet o c.id (f c.id)) m0) k).isSome ↔
      (ordGet m0 k).isSome ∨ k ∈ cols.map Column.id := by
  induction cols generalizing m0 with
  | nil => simp
  | cons c rest ih =>
    simp only [List.foldl_cons, ih, ordGet_isSome_ordSet, List.map_cons,
      List.mem_cons]
    tauto

end Lemmas

theorem normalizeIndex_ne_null (raw : Json) (h : raw ≠ .null) :
    normalizeIndex raw =
      some { columns := normalizeColumns raw
             order := (normalizeColumns raw).foldl
               (fun o c => ordSet o c.id (normalizeOrderList raw c.id)) [] } := by
  cases raw <;> first | exact absurd rfl h | rfl

theorem DEFAULT_COLUMNS_ne_nil : DEFAULT_COLUMNS ≠ [] := by decide

theorem normalizeColumns_ne_nil (raw : Json) : normalizeColumns raw ≠ [] := by
  unfold normalizeColumns
  split
  · dsimp only
    split
    · split
      · rename_i hlen
        intro hnil
        rw [hnil] at hlen
        simp at hlen
      · exact DEFAULT_COLUMNS_ne_nil
    · exact DEFAULT_COLUMNS_ne_nil
  · exact DEFAULT_COLUMNS_ne_nil

/-- C5 (counterexample): `normalizeIndex` is not total on every input
value: on the JSON `null` value the property read `raw.columns` throws a
`TypeError` (modeled as `none`), so "never throws" fails at `null`. -/
theorem claim_C5_counterexample : normalizeIndex Json.null = none := rfl

/-- C5 (amended): for every input value other than the JSON `null` value,
`normalizeIndex` never throws, its order map is keyed by exactly the ids
of its columns array, and whenever `raw.columns` is absent, not an array,
empty, or contains no element with both a string `id` and a string
`title`, the returned columns are exactly the default set. -/
theorem claim_C5_normalize_total_keyed (raw : Json) (h : raw ≠ Json.null) :
    ∃ idx, normalizeIndex raw = some idx ∧
      (∀ k, (ordGet idx.order k).isSome ↔ k ∈ idx.columns.map Column.id) ∧
      (∀ xs, jsGet raw (txt "columns") = some (Json.arr xs) →
        xs.filterMap parseColumnJ = [] → idx.columns = DEFAULT_COLUMNS) ∧
      ((∀ xs, jsGet raw (txt "columns") ≠ some (Json.arr xs)) →
        idx.columns = DEFAULT_COLUMNS) := by
  refine ⟨_, normalizeIndex_ne_null raw h, ?_, ?_, ?_⟩
  · intro k
    simpa [ordGet] using
      ordKeys_fold (normalizeColumns raw) (normalizeOrderList raw) [] k
  · intro xs hxs hemp
    unfold normalizeColumns
    rw [hxs]
    dsimp only
    split
    · rw [hemp]
      simp
    · rfl
  · intro hno
    unfold normalizeColumns
    cases hj : jsGet raw (txt "columns") with
    | none => rfl
    | some v =>
      cases v with
      | arr xs => exact absurd hj (hno xs)
      | null => rfl
      | bool b => rfl
      | num n => rfl
      | str s => rfl
      | obj fields => rfl

/-- C5 (witness): the amended theorem applied at a concrete malformed
input (`columns` present but not an array). -/
theorem claim_C5_witness :
    ∃ idx, normalizeIndex (Json.obj [(txt "columns", Json.num 5)]) = some idx ∧
      (∀ k, (ordGet idx.order k).isSome ↔ k ∈ idx.columns.map Column.id) ∧
      (∀ xs, jsGet (Json.obj [(txt "columns", Json.num 5)]) (txt "columns") =
          some (Json.arr xs) →
        xs.filterMap parseColumnJ = [] → idx.columns = DEFAULT_COLUMNS) ∧
      ((∀ xs, jsGet (Json.obj [(txt "columns", Json.num 5)]) (txt "columns") ≠
          some (Json.arr xs)) →
        idx.columns = DEFAULT_COLUMNS) :=
  claim_C5_normalize_total_keyed _ (fun h => Json.noConfusion h)

section EnsureUnique

/-- Decimal value of a digit list (left inverse of `natDigits`). -/
def digitsVal (s : Str) : Nat := s.foldl (fun b c => b * 10 + (c.toNat - 48)) 0

theorem digitChar_val (n : Nat) (h : n < 10) :
    (Nat.digitChar n).toNat - 48 = n := by
  interval_cases n <;> rfl

theorem toDigitsCore_succ_eq (fuel n : Nat) (acc : List Char) :
    Nat.toDigitsCore 10 (fuel + 1) n acc =
      if n / 10 = 0 then Nat.digitChar (n % 10) :: acc
      else Nat.toDigitsCore 10 fuel (n / 10) (Nat.digitChar (n % 10) :: acc) :=
  rfl

theorem foldl_toDigitsCore (fuel : Nat) :
    ∀ (n a : Nat) (acc : List Char), n < 10 ^ (fuel + 1) →
    ∃ L, 0 < L ∧
      (Nat.toDigitsCore 10 (fuel + 1) n acc).foldl
          (fun b c => b * 10 + (c.toNat - 48)) a =
        acc.foldl (fun b c => b * 10 + (c.toNat - 48)) (a * 10 ^ L + n) := by
  induction fuel with
  | zero =>
    intro n a acc h
    have hn : n < 10 := by simpa using h
    have hq : n / 10 = 0 := Nat.div_eq_of_lt hn
    refine ⟨1, Nat.one_pos, ?_⟩
    rw [toDigitsCore_succ_eq, if_pos hq, List.foldl_cons,
      Nat.mod_eq_of_lt hn, digitChar_val n hn]
    norm_num
  | succ f ih =>
    intro n a acc h
    by_cases hq : n / 10 = 0
    · have hn : n < 10 := by
        rcases Nat.lt_or_ge n 10 with h' | h'
        · exact h'
        · exact absurd hq (by
            have : 1 ≤ n / 10 := (Nat.le_div_iff_mul_le (by norm_num)).mpr
              (by omega)
            omega)
      refine ⟨1, Nat.one_pos, ?_⟩
      rw [toDigitsCore_succ_eq, if_pos hq, List.foldl_cons,
        Nat.mod_eq_of_lt hn, digitChar_val n hn]
      norm_num
    · have hlt : n / 10 < 10 ^ (f + 1) := by
        rw [Nat.div_lt_iff_lt_mul (by norm_num)]
        calc n < 10 ^ (f + 1 + 1) := h
        _ = 10 ^ (f + 1) * 10 := by ring
      obtain ⟨L, hL, heq⟩ :=
        ih (n / 10) a (Nat.digitChar (n % 10) :: acc) hlt
      refine ⟨L + 1, Nat.succ_pos L, ?_⟩
      rw [toDigitsCore_succ_eq, if_neg hq, heq, List.foldl_cons]
      congr 1
      rw [digitChar_val (n % 10) (Nat.mod_lt n (by norm_num))]
      have hdm := Nat.div_add_mod n 10
      have : (10 : Nat) ^ (L + 1) = 10 ^ L * 10 := by ring
      rw [this]
      ring_nf
      omega

theorem digitsVal_natDigits (n : Nat) : digitsVal (natDigits n) = n := by
  have hlt : n < 10 ^ (n + 1) := by
    calc n < 10 ^ n := Nat.lt_pow_self (by norm_num) n
    _ ≤ 10 ^ (n + 1) := Nat.pow_le_pow_right (by norm_num) (Nat.le_succ n)
  obtain ⟨L, _, heq⟩ := foldl_toDigitsCore n n 0 [] hlt
  simpa [digitsVal, natDigits, Nat.toDigits] using heq

theorem natDigits_inj {m n : Nat} (h : natDigits m = natDigits n) : m = n := by
  rw [← digitsVal_natDigits m, ← digitsVal_natDigits n, h]

theorem candidate_inj (baseId : Str) : Function.Injective (candidate baseId) := by
  intro m n h
  match m, n with
  | 0, 0 => rfl
  | 0, n + 1 =>
    exfalso
    have := congrArg List.length h
    simp [candidate] at this
  | m + 1, 0 =>
    exfalso
    have := congrArg List.length h
    simp [candidate] at this
  | m + 1, n + 1 =>
    simp only [candidate, List.append_cancel_left_eq, List.cons.injEq] at h
    exact natDigits_inj h.2

theorem exists_candidate_free (existing : List Str) (baseId : Str) :
    ∃ j < existing.length + 1, candidate baseId j ∉ existing := by
  by_contra hcon
  push_neg at hcon
  have hnd : ((List.range (existing.length + 1)).map (candidate baseId)).Nodup :=
    (List.nodup_range _).map (candidate_inj baseId)
  have hsub : (List.range (existing.length + 1)).map (candidate baseId) ⊆
      existing := by
    intro x hx
    simp only [List.mem_map, List.mem_range] at hx
    obtain ⟨j, hj, rfl⟩ := hx
    exact hcon j hj
  have h1 : ((List.range (existing.length + 1)).map (candidate baseId)).toFinset.card =
      existing.length + 1 := by
    rw [List.toFinset_card_of_nodup hnd]
    simp
  have h2 : ((List.range (existing.length + 1)).map (candidate baseId)).toFinset ⊆
      existing.toFinset := by
    intro x hx
    rw [List.mem_toFinset] at hx ⊢
    exact hsub hx
  have h3 := Finset.card_le_card h2
  have h4 := existing.toFinset_card_le
  omega

theorem findFree_spec (existing : List Str) (baseId : Str) :
    ∀ (fuel k : Nat), (∃ j < fuel, candidate baseId (k + j) ∉ existing) →
      k ≤ findFree existing baseId fuel k ∧
      candidate baseId (findFree existing baseId fuel k) ∉ existing ∧
      ∀ m, k ≤ m → m < findFree existing baseId fuel k →
        candidate baseId m ∈ existing := by
  intro fuel
  induction fuel with
  | zero =>
    intro k h
    obtain ⟨j, hj, _⟩ := h
    omega
  | succ f ih =>
    intro k h
    by_cases hk : candidate baseId k ∈ existing
    · have hrec : ∃ j < f, candidate baseId (k + 1 + j) ∉ existing := by
        obtain ⟨j, hj, hfree⟩ := h
        match j, hj with
        | 0, _ => exact absurd hk (by simpa using hfree)
        | j + 1, hj =>
          exact ⟨j, by omega, by
            have harith : k + 1 + j = k + (j + 1) := by omega
            rw [harith]; exact hfree⟩
      obtain ⟨h1, h2, h3⟩ := ih (k + 1) hrec
      have hval : findFree existing baseId (f + 1) k =
          findFree existing baseId f (k + 1) := by
        simp [findFree, hk]
      rw [hval]
      refine ⟨by omega, h2, ?_⟩
      intro m hm1 hm2
      rcases Nat.eq_or_lt_of_le hm1 with heq | hlt
      · rw [← heq]; exact hk
      · exact h3 m hlt hm2
    · have hval : findFree existing baseId (f + 1) k = k := by
        simp [findFree, hk]
      rw [hval]
      exact ⟨le_refl k, hk, by omega⟩

end EnsureUnique

theorem candidate_zero (baseId : Str) : candidate baseId 0 = baseId := rfl

theorem candidate_pos (baseId : Str) (r : Nat) (h : 1 ≤ r) :
    candidate baseId r = baseId ++ '-' :: natDigits r := by
  match r, h with
  | n + 1, _ => rfl

/-- C8: for every finite list of existing columns and every base id,
`ensureUniqueColumnId` returns the base id when it is not already a column
id, and otherwise the first of `base-1`, `base-2`, … that is not among the
existing column ids.  (Termination of the source's `while` loop is the
content of `exists_candidate_free`: the candidates are pairwise distinct,
so one within the first `length + 1` is always free, which is exactly the
fuel this embedding gives the loop.) -/
theorem claim_C8_ensureUnique (columns : List Column) (baseId : Str) :
    (baseId ∉ columns.map Column.id →
      ensureUniqueColumnId columns baseId = baseId) ∧
    (baseId ∈ columns.map Column.id →
      ∃ k, 1 ≤ k ∧
        ensureUniqueColumnId columns baseId = baseId ++ '-' :: natDigits k ∧
        (baseId ++ '-' :: natDigits k) ∉ columns.map Column.id ∧
        ∀ j, 1 ≤ j → j < k →
          (baseId ++ '-' :: natDigits j) ∈ columns.map Column.id) := by
  obtain ⟨j, hj, hfree⟩ := exists_candidate_free (columns.map Column.id) baseId
  obtain ⟨-, hfree', hmin⟩ := findFree_spec (columns.map Column.id) baseId
    ((columns.map Column.id).length + 1) 0 ⟨j, hj, by simpa using hfree⟩
  have hens : ensureUniqueColumnId columns baseId =
      candidate baseId (findFree (columns.map Column.id) baseId
        ((columns.map Column.id).length + 1) 0) := rfl
  set r := findFree (columns.map Column.id) baseId
    ((columns.map Column.id).length + 1) 0 with hr
  constructor
  · intro hnot
    have hr0 : r = 0 := by
      by_contra hne
      exact hnot (by
        have := hmin 0 (Nat.zero_le 0) (Nat.pos_of_ne_zero hne)
        rwa [candidate_zero] at this)
    rw [hens, hr0, candidate_zero]
  · intro hmem
    have hrpos : 1 ≤ r := by
      rcases Nat.eq_zero_or_pos r with h0 | h1
      · exact absurd hmem (by rwa [h0, candidate_zero] at hfree')
      · exact h1
    refine ⟨r, hrpos, ?_, ?_, ?_⟩
    · rw [hens, candidate_pos baseId r hrpos]
    · rwa [candidate_pos baseId r hrpos] at hfree'
    · intro i hi1 hi2
      have := hmin i (Nat.zero_le i) hi2
      rwa [candidate_pos baseId i hi1] at this

/-- C8 (witness): with existing ids `{todo, todo-1}` and base `todo`,
the theorem applies and the result evaluates to `todo-2`. -/
theorem claim_C8_witness :
    (txt "todo" ∈
      ([⟨txt "todo", txt "TODO"⟩, ⟨txt "todo-1", txt "TODO 1"⟩] :
        List Column).map Column.id) ∧
    (∃ k, 1 ≤ k ∧
      ensureUniqueColumnId
          [⟨txt "todo", txt "TODO"⟩, ⟨txt "todo-1", txt "TODO 1"⟩]
          (txt "todo") =
        txt "todo" ++ '-' :: natDigits k ∧
      (txt "todo" ++ '-' :: natDigits k) ∉
        ([⟨txt "todo", txt "TODO"⟩, ⟨txt "todo-1", txt "TODO 1"⟩] :
          List Column).map Column.id ∧
      ∀ j, 1 ≤ j → j < k →
        (txt "todo" ++ '-' :: natDigits j) ∈
          ([⟨txt "todo", txt "TODO"⟩, ⟨txt "todo-1", txt "TODO 1"⟩] :
            List Column).map Column.id) ∧
    ensureUniqueColumnId
        [⟨txt "todo", txt "TODO"⟩, ⟨txt "todo-1", txt "TODO 1"⟩]
        (txt "todo") = txt "todo-2" :=
  ⟨by decide, (claim_C8_ensureUnique _ _).2 (by decide), by decide⟩

theorem readIndexS_clean (s : Store) (j : Json) (idx : IndexData)
    (hj : s.index = some (.json j)) (hn : normalizeIndex j = some idx) :
    readIndexS s = (idx, s) := by
  simp [readIndexS, hj, hn]

/-- C2: on a store whose persisted index normalizes to exactly one
column, `deleteColumn` fails with a described error for every input, and
the whole store — in particular the index file's content — is unchanged. -/
theorem claim_C2_deleteColumn_last (s : Store) (j : Json) (idx : IndexData)
    (data : Json)
    (hj : s.index = some (.json j)) (hn : normalizeIndex j = some idx)
    (hone : idx.columns.length = 1) :
    ∃ e, deleteColumnS data s = (.error e, s) ∧
      (e = txt "Missing column ID." ∨
       e = txt "Cannot delete the last column.") := by
  cases hget : jsGet data (txt "columnId") with
  | none =>
    refine ⟨txt "Missing column ID.", ?_, .inl rfl⟩
    simp [deleteColumnS, hget]
  | some v =>
    cases v with
    | str cid =>
      by_cases hc : cid = []
      · refine ⟨txt "Missing column ID.", ?_, .inl rfl⟩
        simp [deleteColumnS, hget, hc]
      · refine ⟨txt "Cannot delete the last column.", ?_, .inr rfl⟩
        simp [deleteColumnS, hget, hc, readIndexS_clean s j idx hj hn, hone]
    | null =>
      refine ⟨txt "Missing column ID.", ?_, .inl rfl⟩
      simp [deleteColumnS, hget]
    | bool b =>
      refine ⟨txt "Missing column ID.", ?_, .inl rfl⟩
      simp [deleteColumnS, hget]
    | num n =>
      refine ⟨txt "Missing column ID.", ?_, .inl rfl⟩
      simp [deleteColumnS, hget]
    | arr xs =>
      refine ⟨txt "Missing column ID.", ?_, .inl rfl⟩
      simp [deleteColumnS, hget]
    | obj fields =>
      refine ⟨txt "Missing column ID.", ?_, .inl rfl⟩
      simp [deleteColumnS, hget]

/-- C2 (witness): the theorem applied to a concrete one-column store. -/
theorem claim_C2_witness :
    ∃ e,
      deleteColumnS (Json.obj [(txt "columnId", Json.str (txt "a"))])
          { index := some (.json (Json.obj
              [(txt "columns", Json.arr [Json.obj
                  [(txt "id", Json.str (txt "a")),
                   (txt "title", Json.str (txt "A"))]]),
               (txt "order", Json.obj [(txt "a", Json.arr [])])]))
            files := [] } =
        (.error e,
         { index := some (.json (Json.obj
             [(txt "columns", Json.arr [Json.obj
                 [(txt "id", Json.str (txt "a")),
                  (txt "title", Json.str (txt "A"))]]),
              (txt "order", Json.obj [(txt "a", Json.arr [])])]))
           files := [] }) ∧
      (e = txt "Missing column ID." ∨
       e = txt "Cannot delete the last column.") :=
  claim_C2_deleteColumn_last _ _ ⟨[⟨txt "a", txt "A"⟩], [(txt "a", [])]⟩ _
    rfl rfl rfl

/-- C10 (counterexample): the claim quantifies over every input whose
`columnId` matches no existing column; the empty string is such an input
(nonzero-length ids only exist here), yet JavaScript falsiness makes
`deleteColumn` report "Missing column ID." instead of
"Cannot delete the last column." on a sole-column board. -/
theorem claim_C10_counterexample :
    deleteColumnS (Json.obj [(txt "columnId", Json.str [])])
        { index := some (.json (Json.obj
            [(txt "columns", Json.arr [Json.obj
                [(txt "id", Json.str (txt "a")),
                 (txt "title", Json.str (txt "A"))]]),
             (txt "order", Json.obj [(txt "a", Json.arr [])])]))
          files := [] } =
      (.error (txt "Missing column ID."),
       { index := some (.json (Json.obj
           [(txt "columns", Json.arr [Json.obj
               [(txt "id", Json.str (txt "a")),
                (txt "title", Json.str (txt "A"))]]),
            (txt "order", Json.obj [(txt "a", Json.arr [])])]))
         files := [] }) ∧
    txt "Missing column ID." ≠ txt "Cannot delete the last column." :=
  ⟨rfl, by decide⟩

/-- C10 (amended): `deleteColumn` evaluates the last-column guard before
the column-existence check: for every input whose `columnId` is a
non-empty string matching no existing column, if exactly one column
remains the reported error is "Cannot delete the last column." rather
than "Column not found.", and in either case the operation's own checks
make no persisted change. -/
theorem claim_C10_guard_order (s : Store) (j : Json) (idx : IndexData)
    (data : Json) (cid : Str)
    (hj : s.index = some (.json j)) (hn : normalizeIndex j = some idx)
    (hget : jsGet data (txt "columnId") = some (.str cid))
    (hcne : cid ≠ [])
    (hnomatch : cid ∉ idx.columns.map Column.id) :
    (idx.columns.length = 1 →
      deleteColumnS data s =
        (.error (txt "Cannot delete the last column."), s)) ∧
    (1 < idx.columns.length →
      deleteColumnS data s = (.error (txt "Column not found."), s)) := by
  constructor
  · intro hone
    simp [deleteColumnS, hget, hcne, readIndexS_clean s j idx hj hn, hone]
  · intro hmore
    have hfind : idx.columns.findIdx? (·.id == cid) = none := by
      rw [List.findIdx?_eq_none_iff]
      intro c hc
      simp only [beq_eq_false_iff_ne, ne_eq]
      intro heq
      exact hnomatch (heq ▸ List.mem_map_of_mem Column.id hc)
    simp [deleteColumnS, hget, hcne, readIndexS_clean s j idx hj hn,
      Nat.not_le.mpr hmore, hfind]

/-- C10 (witness): the amended theorem applied to a concrete one-column
store and a concrete unknown column id. -/
theorem claim_C10_witness :
    ((1 : Nat) = 1 →
      deleteColumnS (Json.obj [(txt "columnId", Json.str (txt "zzz"))])
          { index := some (.json (Json.obj
              [(txt "columns", Json.arr [Json.obj
                  [(txt "id", Json.str (txt "a")),
                   (txt "title", Json.str (txt "A"))]]),
               (txt "order", Json.obj [(txt "a", Json.arr [])])]))
            files := [] } =
        (.error (txt "Cannot delete the last column."),
         { index := some (.json (Json.obj
             [(txt "columns", Json.arr [Json.obj
                 [(txt "id", Json.str (txt "a")),
                  (txt "title", Json.str (txt "A"))]]),
              (txt "order", Json.obj [(txt "a", Json.arr [])])]))
           files := [] })) ∧
    ((1 : Nat) < 1 →
      deleteColumnS (Json.obj [(txt "columnId", Json.str (txt "zzz"))])
          { index := some (.json (Json.obj
              [(txt "columns", Json.arr [Json.obj
                  [(txt "id", Json.str (txt "a")),
                   (txt "title", Json.str (txt "A"))]]),
               (txt "order", Json.obj [(txt "a", Json.arr [])])]))
            files := [] } =
        (.error (txt "Column not found."),
         { index := some (.json (Json.obj
             [(txt "columns", Json.arr [Json.obj
                 [(txt "id", Json.str (txt "a")),
                  (txt "title", Json.str (txt "A"))]]),
              (txt "order", Json.obj [(txt "a", Json.arr [])])]))
           files := [] })) :=
  claim_C10_guard_order _ _ ⟨[⟨txt "a", txt "A"⟩], [(txt "a", [])]⟩ _
    (txt "zzz") rfl rfl rfl (by decide) (by decide)

/-- C4 (counterexample): the claim quantifies over every input record
with string `cardId`; the empty string is a string, yet JavaScript
falsiness makes `moveCard` fail with "Missing move information." and
persist nothing, instead of removing/clamping/inserting as claimed. -/
theorem claim_C4_counterexample :
    moveCardS (Json.obj
        [(txt "cardId", Json.str []),
         (txt "fromColumnId", Json.str (txt "a")),
         (txt "toColumnId", Json.str (txt "b")),
         (txt "toIndex", Json.num 0)])
      { index := some (.json (Json.obj
          [(txt "columns", Json.arr
              [Json.obj [(txt "id", Json.str (txt "a")),
                         (txt "title", Json.str (txt "A"))],
               Json.obj [(txt "id", Json.str (txt "b")),
                         (txt "title", Json.str (txt "B"))]]),
           (txt "order", Json.obj
              [(txt "a", Json.arr [Json.str (txt "x")]),
               (txt "b", Json.arr [])])]))
        files := [] } =
    (.error (txt "Missing move information."),
     { index := some (.json (Json.obj
         [(txt "columns", Json.arr
             [Json.obj [(txt "id", Json.str (txt "a")),
                        (txt "title", Json.str (txt "A"))],
              Json.obj [(txt "id", Json.str (txt "b")),
                        (txt "title", Json.str (txt "B"))]]),
          (txt "order", Json.obj
             [(txt "a", Json.arr [Json.str (txt "x")]),
              (txt "b", Json.arr [])])]))
       files := [] }) := rfl

/-- C4 (amended): for every input record whose `cardId`, `fromColumnId`
and `toColumnId` are non-empty strings and whose `toIndex` is an integer,
`moveCard` first removes `cardId` from the source column's order list and
then clamps `toIndex` into `[0, length of the destination list after that
removal]` before inserting — for a same-column move the clamp is against
a list one shorter than the original. -/
theorem claim_C4_moveCard (s : Store) (j : Json) (idx : IndexData)
    (data : Json) (cardId fromId toId : Str) (toIndex : Int)
    (hj : s.index = some (.json j)) (hn : normalizeIndex j = some idx)
    (h1 : jsGet data (txt "cardId") = some (.str cardId)) (h1n : cardId ≠ [])
    (h2 : jsGet data (txt "fromColumnId") = some (.str fromId))
    (h2n : fromId ≠ [])
    (h3 : jsGet data (txt "toColumnId") = some (.str toId)) (h3n : toId ≠ [])
    (h4 : jsGet data (txt "toIndex") = some (.num toIndex)) :
    moveCardS data s =
      (.ok (), writeIndexS s
        ⟨idx.columns,
         ordSet (ordSet idx.order fromId
             (((ordGet idx.order fromId).getD []).filter
               (fun id => id != cardId)))
           toId
           ((moveDest idx cardId fromId toId).take
              (moveClamp idx cardId fromId toId toIndex).toNat ++
            cardId ::
            (moveDest idx cardId fromId toId).drop
              (moveClamp idx cardId fromId toId toIndex).toNat)⟩) ∧
    0 ≤ moveClamp idx cardId fromId toId toIndex ∧
    moveClamp idx cardId fromId toId toIndex ≤
      (moveDest idx cardId fromId toId).length := by
  have hdest : (ordGet (ordSet idx.order fromId
      (((ordGet idx.order fromId).getD []).filter
        (fun id => id != cardId))) toId).getD [] =
      moveDest idx cardId fromId toId := by
    unfold moveDest
    by_cases h : toId = fromId
    · subst h
      simp [ordGet_ordSet_self]
    · simp [ordGet_ordSet_ne _ _ _ _ h, h]
  refine ⟨?_, le_max_left 0 _, ?_⟩
  · simp only [moveCardS, h1, h2, h3, h4]
    rw [if_neg (by simp [h1n, h2n, h3n])]
    rw [readIndexS_clean s j idx hj hn]
    simp only [moveClamp] at *
    rw [hdest]
  · unfold moveClamp
    have h1' : min toIndex ((moveDest idx cardId fromId toId).length : Int) ≤
        (moveDest idx cardId fromId toId).length := min_le_right _ _
    omega

/-- C4 (witness): moving `x` from source list `[x, y]` to an empty
destination with `toIndex = 0` yields source `[y]` and destination `[x]`,
by the amended theorem applied at that concrete input. -/
theorem claim_C4_witness :
    moveCardS (Json.obj
        [(txt "cardId", Json.str (txt "x")),
         (txt "fromColumnId", Json.str (txt "a")),
         (txt "toColumnId", Json.str (txt "b")),
         (txt "toIndex", Json.num 0)])
      { index := some (.json (Json.obj
          [(txt "columns", Json.arr
              [Json.obj [(txt "id", Json.str (txt "a")),
                         (txt "title", Json.str (txt "A"))],
               Json.obj [(txt "id", Json.str (txt "b")),
                         (txt "title", Json.str (txt "B"))]]),
           (txt "order", Json.obj
              [(txt "a", Json.arr [Json.str (txt "x"), Json.str (txt "y")]),
               (txt "b", Json.arr [])])]))
        files := [] } =
    (.ok (), writeIndexS
      { index := some (.json (Json.obj
          [(txt "columns", Json.arr
              [Json.obj [(txt "id", Json.str (txt "a")),
                         (txt "title", Json.str (txt "A"))],
               Json.obj [(txt "id", Json.str (txt "b")),
                         (txt "title", Json.str (txt "B"))]]),
           (txt "order", Json.obj
              [(txt "a", Json.arr [Json.str (txt "x"), Json.str (txt "y")]),
               (txt "b", Json.arr [])])]))
        files := [] }
      ⟨[⟨txt "a", txt "A"⟩, ⟨txt "b", txt "B"⟩],
       [(txt "a", [txt "y"]), (txt "b", [txt "x"])]⟩) :=
  (claim_C4_moveCard
      { index := some (.json (Json.obj
          [(txt "columns", Json.arr
              [Json.obj [(txt "id", Json.str (txt "a")),
                         (txt "title", Json.str (txt "A"))],
               Json.obj [(txt "id", Json.str (txt "b")),
                         (txt "title", Json.str (txt "B"))]]),
           (txt "order", Json.obj
              [(txt "a", Json.arr [Json.str (txt "x"), Json.str (txt "y")]),
               (txt "b", Json.arr [])])]))
        files := [] }
      (Json.obj
          [(txt "columns", Json.arr
              [Json.obj [(txt "id", Json.str (txt "a")),
                         (txt "title", Json.str (txt "A"))],
               Json.obj [(txt "id", Json.str (txt "b")),
                         (txt "title", Json.str (txt "B"))]]),
           (txt "order", Json.obj
              [(txt "a", Json.arr [Json.str (txt "x"), Json.str (txt "y")]),
               (txt "b", Json.arr [])])])
      ⟨[⟨txt "a", txt "A"⟩, ⟨txt "b", txt "B"⟩],
       [(txt "a", [txt "x", txt "y"]), (txt "b", [])]⟩
      (Json.obj
        [(txt "cardId", Json.str (txt "x")),
         (txt "fromColumnId", Json.str (txt "a")),
         (txt "toColumnId", Json.str (txt "b")),
         (txt "toIndex", Json.num 0)])
      (txt "x") (txt "a") (txt "b") 0 rfl rfl rfl (by decide) rfl (by decide)
      rfl (by decide) rfl).1

section ReorderColumns

/-- The columns matched by the loop of `reorderColumns`, in `orderedIds`
processing order: each id takes its column out of the remaining pool. -/
def matchedCols : List Column → List Str → List Column
  | _, [] => []
  | m, i :: t =>
    match m.find? (·.id == i) with
    | some c => c :: matchedCols (m.filter (·.id != i)) t
    | none => matchedCols m t

theorem mapInsertCol_fresh (acc : List Column) (c : Column)
    (h : c.id ∉ acc.map Column.id) : mapInsertCol acc c = acc ++ [c] := by
  induction acc with
  | nil => rfl
  | cons a t ih =>
    simp only [List.map_cons, List.mem_cons, not_or] at h
    simp only [mapInsertCol, if_neg (Ne.symm h.1)]
    rw [ih h.2]
    rfl

theorem foldl_mapInsertCol (cols : List Column) :
    ∀ acc : List Column, ((acc ++ cols).map Column.id).Nodup →
      cols.foldl mapInsertCol acc = acc ++ cols := by
  induction cols with
  | nil => intro acc _; simp
  | cons c t ih =>
    intro acc h
    have hc : c.id ∉ acc.map Column.id := by
      simp only [List.map_append, List.map_cons, List.nodup_append] at h
      intro hmem
      exact (h.2.2 hmem) (List.mem_cons_self _ _)
    rw [List.foldl_cons, mapInsertCol_fresh acc c hc]
    have := ih (acc ++ [c]) (by simpa using h)
    simpa using this

theorem mapFromCols_eq (cols : List Column)
    (h : (cols.map Column.id).Nodup) : cols.foldl mapInsertCol [] = cols := by
  simpa using foldl_mapInsertCol cols [] (by simpa using h)

theorem find?_cons_perm (l : List Column) (i : Str) (c : Column)
    (hnd : (l.map Column.id).Nodup)
    (h : l.find? (·.id == i) = some c) :
    (c :: l.filter (·.id != i)).Perm l := by
  induction l with
  | nil => simp at h
  | cons a t ih =>
    simp only [List.map_cons, List.nodup_cons] at hnd
    by_cases ha : a.id = i
    · rw [List.find?_cons_of_pos _ (by simpa using ha)] at h
      have hc : c = a := by injection h with h'; exact h'.symm
      subst hc
      have hkeep : t.filter (·.id != i) = t := by
        rw [List.filter_eq_self]
        intro x hx
        simp only [bne_iff_ne, ne_eq]
        intro hxi
        exact hnd.1 (by rw [← ha] at hxi; exact hxi ▸ List.mem_map_of_mem Column.id hx)
      simp [List.filter_cons, ha, hkeep]
    · rw [List.find?_cons_of_neg _ (by simpa using ha)] at h
      have := ih hnd.2 h
      have hfa : (a.id != i) = true := by simpa using ha
      rw [List.filter_cons, if_pos hfa]
      exact (List.Perm.swap a c _).trans (this.cons a)

theorem foldl_reorderStep (ids : List Str) :
    ∀ acc m : List Column,
      ids.foldl reorderStep (acc, m) =
        (acc ++ matchedCols m ids,
         m.filter (fun c => !(ids.contains c.id))) := by
  induction ids with
  | nil =>
    intro acc m
    simp [matchedCols]
  | cons i t ih =>
    intro acc m
    rw [List.foldl_cons]
    cases hf : m.find? (·.id == i) with
    | some c =>
      have hstep : reorderStep (acc, m) i =
          (acc ++ [c], m.filter (·.id != i)) := by
        simp [reorderStep, hf]
      rw [hstep, ih]
      refine congrArg₂ Prod.mk ?_ ?_
      · simp [matchedCols, hf]
      · rw [List.filter_filter]
        apply List.filter_congr
        intro x _
        by_cases h1 : x.id = i <;> by_cases h2 : x.id ∈ t <;>
          simp [List.contains_cons, h1, h2]
    | none =>
      have hstep : reorderStep (acc, m) i = (acc, m) := by
        simp [reorderStep, hf]
      rw [hstep, ih]
      have hnone := List.find?_eq_none.mp hf
      refine congrArg₂ Prod.mk ?_ ?_
      · simp [matchedCols, hf]
      · apply List.filter_congr
        intro x hx
        have hxi : ¬ x.id = i := by simpa using hnone x hx
        by_cases h2 : x.id ∈ t <;> simp [List.contains_cons, hxi, h2]

theorem find?_filter_ne_key (m : List Column) (i j : Str) (h : j ≠ i) :
    (m.filter (·.id != i)).find? (·.id == j) = m.find? (·.id == j) := by
  induction m with
  | nil => rfl
  | cons a t ih =>
    by_cases ha : a.id = i
    · have h1 : (a.id != i) = false := by simpa using ha
      have h2 : (a.id == j) = false := by
        simp only [beq_eq_false_iff_ne, ne_eq]
        intro hj
        exact h (by rw [← hj, ha])
      rw [List.filter_cons, if_neg (by simp [h1]), ih,
        List.find?_cons_of_neg _ (by simp [h2])]
    · have h1 : (a.id != i) = true := by simpa using ha
      rw [List.filter_cons, if_pos h1]
      by_cases hj : a.id = j
      · rw [List.find?_cons_of_pos _ (by simpa using hj),
          List.find?_cons_of_pos _ (by simpa using hj)]
      · rw [List.find?_cons_of_neg _ (by simpa using hj),
          List.find?_cons_of_neg _ (by simpa using hj), ih]

theorem find?_filter_self_key (m : List Column) (i : Str) :
    (m.filter (·.id != i)).find? (·.id == i) = none := by
  rw [List.find?_eq_none]
  intro x hx
  simp only [List.mem_filter, bne_iff_ne, ne_eq] at hx
  simpa using hx.2

theorem filterMap_find?_filter (m : List Column) (i : Str) (js : List Str) :
    js.filterMap (fun j => (m.filter (·.id != i)).find? (·.id == j)) =
      (js.filter (fun j => j != i)).filterMap
        (fun j => m.find? (·.id == j)) := by
  induction js with
  | nil => rfl
  | cons j t ih =>
    by_cases hj : j = i
    · subst hj
      rw [List.filterMap_cons, find?_filter_self_key, List.filter_cons,
        if_neg (by simp), ih]
    · rw [List.filterMap_cons, find?_filter_ne_key m i j hj,
        List.filter_cons, if_pos (by simpa using hj), List.filterMap_cons,
        ih]

theorem filterMap_find?_none (m : List Column) (i : Str) (js : List Str)
    (hnone : m.find? (·.id == i) = none) :
    js.filterMap (fun j => m.find? (·.id == j)) =
      (js.filter (fun j => j != i)).filterMap
        (fun j => m.find? (·.id == j)) := by
  induction js with
  | nil => rfl
  | cons j t ih =>
    by_cases hj : j = i
    · subst hj
      rw [List.filterMap_cons, hnone, List.filter_cons, if_neg (by simp), ih]
    · rw [List.filterMap_cons, List.filter_cons,
        if_pos (by simpa using hj), List.filterMap_cons, ih]

theorem nodup_filter_ids (m : List Column) (i : Str)
    (h : (m.map Column.id).Nodup) :
    ((m.filter (·.id != i)).map Column.id).Nodup := by
  have hsub : (m.filter (·.id != i)).Sublist m := List.filter_sublist m
  exact h.sublist (hsub.map Column.id)

theorem matchedCols_eq (ids : List Str) :
    ∀ m : List Column, (m.map Column.id).Nodup →
      matchedCols m ids =
        (dedupF ids).filterMap (fun i => m.find? (·.id == i)) := by
  induction ids with
  | nil => intro m _; rfl
  | cons i t ih =>
    intro m hnd
    cases hf : m.find? (·.id == i) with
    | some c =>
      simp only [matchedCols, hf, dedupF]
      rw [List.filterMap_cons, hf]
      rw [ih (m.filter (·.id != i)) (nodup_filter_ids m i hnd)]
      rw [filterMap_find?_filter]
    | none =>
      simp only [matchedCols, hf, dedupF]
      rw [List.filterMap_cons, hf]
      rw [ih m hnd, filterMap_find?_none m i (dedupF t) hf]

theorem matched_append_rest_perm (ids : List Str) :
    ∀ m : List Column, (m.map Column.id).Nodup →
      (matchedCols m ids ++
        m.filter (fun c => !(ids.contains c.id))).Perm m := by
  induction ids with
  | nil =>
    intro m _
    simp [matchedCols]
  | cons i t ih =>
    intro m hnd
    cases hf : m.find? (·.id == i) with
    | some c =>
      simp only [matchedCols, hf]
      have hff : (m.filter (·.id != i)).filter (fun c => !(t.contains c.id)) =
          m.filter (fun c => !((i :: t).contains c.id)) := by
        rw [List.filter_filter]
        apply List.filter_congr
        intro x _
        by_cases h1 : x.id = i <;> by_cases h2 : x.id ∈ t <;>
          simp [List.contains_cons, h1, h2]
      rw [List.cons_append, ← hff]
      exact ((ih (m.filter (·.id != i)) (nodup_filter_ids m i hnd)).cons c).trans
        (find?_cons_perm m i c hnd hf)
    | none =>
      simp only [matchedCols, hf]
      have hnone := List.find?_eq_none.mp hf
      have hft : m.filter (fun c => !((i :: t).contains c.id)) =
          m.filter (fun c => !(t.contains c.id)) := by
        apply List.filter_congr
        intro x hx
        have hxi : ¬ x.id = i := by simpa using hnone x hx
        by_cases h2 : x.id ∈ t <;> simp [List.contains_cons, hxi, h2]
      rw [hft]
      exact ih m hnd

/-- C6 (amended): for every starting columns array with pairwise-distinct
ids and every `orderedIds` list, `reorderColumns` produces a permutation
of the original columns, equal to: for each distinct id of `orderedIds`
in order, its matching column if any (non-matching ids are ignored),
followed by the columns not mentioned in `orderedIds` in their original
relative order. -/
theorem claim_C6_reorderColumns (cols : List Column) (ids : List Str)
    (h : (cols.map Column.id).Nodup) :
    reorderColumnsCore cols ids =
      (dedupF ids).filterMap (fun i => cols.find? (·.id == i)) ++
        cols.filter (fun c => !(ids.contains c.id)) ∧
    (reorderColumnsCore cols ids).Perm cols := by
  have hcore : reorderColumnsCore cols ids =
      matchedCols cols ids ++ cols.filter (fun c => !(ids.contains c.id)) := by
    unfold reorderColumnsCore
    dsimp only
    rw [mapFromCols_eq cols h, foldl_reorderStep]
    simp
  constructor
  · rw [hcore, matchedCols_eq ids cols h]
  · rw [hcore]
    exact matched_append_rest_perm ids cols h

/-- C6 (counterexample): with duplicate column ids (possible in a
hand-edited index; `normalizeIndex` does not deduplicate ids) the
`Map` in `reorderColumns` collapses the duplicates, losing a column, so
the result is not a permutation of the original columns array. -/
theorem claim_C6_counterexample :
    ¬ (reorderColumnsCore
        [⟨txt "a", txt "A"⟩, ⟨txt "a", txt "B"⟩] []).Perm
      [⟨txt "a", txt "A"⟩, ⟨txt "a", txt "B"⟩] := by
  intro hperm
  have := hperm.length_eq
  simp [reorderColumnsCore, mapInsertCol, reorderStep] at this

/-- C6 (witness): the amended theorem applied at concrete distinct-id
columns with an `orderedIds` list containing an unknown id and omitting
an existing one. -/
theorem claim_C6_witness :
    reorderColumnsCore
        [⟨txt "a", txt "A"⟩, ⟨txt "b", txt "B"⟩, ⟨txt "c", txt "C"⟩]
        [txt "b", txt "zzz", txt "a"] =
      (dedupF [txt "b", txt "zzz", txt "a"]).filterMap
        (fun i =>
          ([⟨txt "a", txt "A"⟩, ⟨txt "b", txt "B"⟩, ⟨txt "c", txt "C"⟩] :
            List Column).find? (·.id == i)) ++
        ([⟨txt "a", txt "A"⟩, ⟨txt "b", txt "B"⟩, ⟨txt "c", txt "C"⟩] :
          List Column).filter
          (fun c => !([txt "b", txt "zzz", txt "a"].contains c.id)) ∧
    (reorderColumnsCore
        [⟨txt "a", txt "A"⟩, ⟨txt "b", txt "B"⟩, ⟨txt "c", txt "C"⟩]
        [txt "b", txt "zzz", txt "a"]).Perm
      [⟨txt "a", txt "A"⟩, ⟨txt "b", txt "B"⟩, ⟨txt "c", txt "C"⟩] :=
  claim_C6_reorderColumns _ _ (by decide)

end ReorderColumns

section UpdateCard

theorem metaLookup_cons (p : Str × Option Str) (rest : Meta) (k : Str) :
    metaLookup (p :: rest) k =
      if p.1 = k then some p.2 else metaLookup rest k := by
  by_cases h : p.1 = k <;> simp [metaLookup, List.find?_cons, h]

theorem metaLookup_metaInsert_self (m : Meta) (k : Str) (v : Option Str) :
    metaLookup (metaInsert m k v) k = some v := by
  induction m with
  | nil => simp [metaInsert, metaLookup]
  | cons p rest ih =>
    by_cases h : p.1 = k
    · simp [metaInsert, h, metaLookup_cons]
    · simp [metaInsert, h, metaLookup_cons, ih]

theorem metaLookup_metaInsert_ne (m : Meta) (k k' : Str) (v : Option Str)
    (h : k' ≠ k) : metaLookup (metaInsert m k v) k' = metaLookup m k' := by
  induction m with
  | nil => simp [metaInsert, metaLookup, Ne.symm h]
  | cons p rest ih =>
    by_cases hp : p.1 = k
    · subst hp
      simp [metaInsert, metaLookup_cons, Ne.symm h]
    · simp [metaInsert, hp, metaLookup_cons, ih]

theorem find?_writeEntryList_self (files : List (Str × DirEntry))
    (name content : Str) (nowMs : Int) (e : DirEntry)
    (h : (files.find? (·.1 == name)).map (·.2) = some e) :
    ((writeEntryList files name content nowMs).find? (·.1 == name)).map
        (·.2) =
      some { e with content := content, mtime := nowMs } := by
  induction files with
  | nil => simp at h
  | cons p rest ih =>
    by_cases hp : p.1 = name
    · rw [List.find?_cons_of_pos _ (by simpa using hp)] at h
      have h' : p.2 = e := by simpa using h
      rw [writeEntryList, if_pos hp,
        List.find?_cons_of_pos _ (by simpa using hp)]
      simp [← h']
    · rw [List.find?_cons_of_neg _ (by simpa using hp)] at h
      rw [writeEntryList, if_neg hp,
        List.find?_cons_of_neg _ (by simpa using hp)]
      exact ih h

theorem find?_writeEntryList_other (files : List (Str × DirEntry))
    (name content : Str) (nowMs : Int) (name' : Str) (h : name' ≠ name) :
    (writeEntryList files name content nowMs).find? (·.1 == name') =
      files.find? (·.1 == name') := by
  induction files with
  | nil =>
    rw [writeEntryList]
    rw [List.find?_cons_of_neg _ (by simpa using Ne.symm h)]
  | cons p rest ih =>
    by_cases hp : p.1 = name
    · have hp' : ¬ p.1 = name' := by
        rw [hp]
        exact Ne.symm h
      rw [writeEntryList, if_pos hp,
        List.find?_cons_of_neg _ (by simpa using hp'),
        List.find?_cons_of_neg _ (by simpa using hp')]
    · rw [writeEntryList, if_neg hp]
      by_cases hq : p.1 = name'
      · rw [List.find?_cons_of_pos _ (by simpa using hq),
          List.find?_cons_of_pos _ (by simpa using hq)]
      · rw [List.find?_cons_of_neg _ (by simpa using hq),
          List.find?_cons_of_neg _ (by simpa using hq), ih]

theorem readEntry_writeCardFile_self (s : Store) (name content : Str)
    (nowMs : Int) (e : DirEntry) (h : readEntry s name = some e) :
    readEntry (writeCardFile s name content nowMs) name =
      some { e with content := content, mtime := nowMs } :=
  find?_writeEntryList_self s.files name content nowMs e h

theorem readEntry_writeCardFile_other (s : Store) (name content : Str)
    (nowMs : Int) (name' : Str) (h : name' ≠ name) :
    readEntry (writeCardFile s name content nowMs) name' =
      readEntry s name' := by
  unfold readEntry writeCardFile
  rw [find?_writeEntryList_other s.files name content nowMs name' h]

theorem writeCardFile_index (s : Store) (name content : Str) (nowMs : Int) :
    (writeCardFile s name content nowMs).index = s.index := rfl

end UpdateCard

theorem updatedMeta_updatedAt (m0 : Meta) (cardId title : Str)
    (due : Option Str) (now : Str) :
    metaLookup (updatedMeta m0 cardId title due now) (txt "updatedAt") =
      some (some now) :=
  metaLookup_metaInsert_self _ _ _

theorem updatedMeta_title (m0 : Meta) (cardId title : Str)
    (due : Option Str) (now : Str) :
    metaLookup (updatedMeta m0 cardId title due now) (txt "title") =
      some (some (trimL title)) := by
  unfold updatedMeta
  rw [metaLookup_metaInsert_ne _ _ _ _ (by decide),
    metaLookup_metaInsert_ne _ _ _ _ (by decide),
    metaLookup_metaInsert_ne _ _ _ _ (by decide),
    metaLookup_metaInsert_self]

theorem updatedMeta_createdAt (m0 : Meta) (cardId title : Str)
    (due : Option Str) (now : Str) (c : Str)
    (hc : metaLookup m0 (txt "createdAt") = some (some c)) (hcne : c ≠ []) :
    metaLookup (updatedMeta m0 cardId title due now) (txt "createdAt") =
      some (some c) := by
  unfold updatedMeta
  have hm3 : metaLookup
      (metaInsert
        (metaInsert (metaInsert m0 (txt "id") (some cardId)) (txt "title")
          (some (trimL title)))
        (txt "due")
        (match due with
         | some d => if trimL d = [] then none else some d
         | none => none))
      (txt "createdAt") = some (some c) := by
    rw [metaLookup_metaInsert_ne _ _ _ _ (by decide),
      metaLookup_metaInsert_ne _ _ _ _ (by decide),
      metaLookup_metaInsert_ne _ _ _ _ (by decide)]
    exact hc
  rw [metaLookup_metaInsert_ne _ _ _ _ (by decide),
    metaLookup_metaInsert_self, hm3]
  simp [hcne]

/-- C7 (counterexample): `updateCard` stores the *trimmed* title, so for
the input title `" A "` the card's persisted title is `"A"`, not the
given input, refuting "its title … equal(s) the given inputs". -/
theorem claim_C7_counterexample :
    (updateCardS (txt "T1") 0
        (Json.obj
          [(txt "cardId", Json.str (txt "c1")),
           (txt "title", Json.str (txt " A ")),
           (txt "detail", Json.str (txt "New"))])
        { index := none
          files := [(txt "c1.md",
            ⟨.file,
             txt "---\nid: c1\ntitle: Old\ncreatedAt: T0\nupdatedAt: T0\n---\nOld body",
             0, 0⟩)] }).1 = .ok () ∧
    (readEntry
        (updateCardS (txt "T1") 0
          (Json.obj
            [(txt "cardId", Json.str (txt "c1")),
             (txt "title", Json.str (txt " A ")),
             (txt "detail", Json.str (txt "New"))])
          { index := none
            files := [(txt "c1.md",
              ⟨.file,
               txt "---\nid: c1\ntitle: Old\ncreatedAt: T0\nupdatedAt: T0\n---\nOld body",
               0, 0⟩)] }).2
        (txt "c1.md")).map
      (fun e => metaLookup (parseFrontMatter e.content).meta (txt "title")) =
      some (some (some (txt "A"))) ∧
    txt "A" ≠ txt " A " := by
  refine ⟨rfl, rfl, by decide⟩

/-- C7 (amended): for every existing card file, `updateCard` with a
non-blank title and a detail succeeds, rewrites only that card's file
(the index and every other file are untouched, and the file's creation
time is preserved), and persists metadata whose `updatedAt` is the
operation's timestamp, whose `title` is the given title trimmed, and
whose `createdAt` equals the prior file's nonempty `createdAt` when one
is recorded; the persisted body is the given detail. -/
theorem claim_C7_updateCard (s : Store) (data : Json) (now : Str)
    (nowMs : Int) (cardId title detail : Str) (due : Option Str)
    (e : DirEntry)
    (h1 : jsGet data (txt "cardId") = some (.str cardId)) (h1n : cardId ≠ [])
    (h2 : jsGet data (txt "title") = some (.str title))
    (h2n : trimL title ≠ [])
    (h3 : jsGet data (txt "detail") = some (.str detail))
    (hdue : (match jsGet data (txt "due") with
             | some (.str v) => some v
             | _ => none) = due)
    (hfile : readEntry s (mdName cardId) = some e)
    (hkind : e.kind = .file) :
    updateCardS now nowMs data s =
      (.ok (), writeCardFile s (mdName cardId)
        (serializeFrontMatter
          (updatedMeta (parseFrontMatter e.content).meta cardId title due now)
          detail)
        nowMs) ∧
    readEntry (updateCardS now nowMs data s).2 (mdName cardId) =
      some { e with
        content := serializeFrontMatter
          (updatedMeta (parseFrontMatter e.content).meta cardId title due now)
          detail
        mtime := nowMs } ∧
    (updateCardS now nowMs data s).2.index = s.index ∧
    (∀ name, name ≠ mdName cardId →
      readEntry (updateCardS now nowMs data s).2 name = readEntry s name) ∧
    metaLookup
        (updatedMeta (parseFrontMatter e.content).meta cardId title due now)
        (txt "updatedAt") = some (some now) ∧
    metaLookup
        (updatedMeta (parseFrontMatter e.content).meta cardId title due now)
        (txt "title") = some (some (trimL title)) ∧
    (∀ c, metaLookup (parseFrontMatter e.content).meta (txt "createdAt") =
        some (some c) → c ≠ [] →
      metaLookup
        (updatedMeta (parseFrontMatter e.content).meta cardId title due now)
        (txt "createdAt") = some (some c)) := by
  have hop : updateCardS now nowMs data s =
      (.ok (), writeCardFile s (mdName cardId)
        (serializeFrontMatter
          (updatedMeta (parseFrontMatter e.content).meta cardId title due now)
          detail)
        nowMs) := by
    simp only [updateCardS, h1, h2, h3, ← hdue]
    rw [if_neg h1n, if_neg (by simpa using h2n), hfile]
    simp [hkind]
  refine ⟨hop, ?_, ?_, ?_, updatedMeta_updatedAt _ _ _ _ _,
    updatedMeta_title _ _ _ _ _,
    fun c hc hcne => updatedMeta_createdAt _ _ _ _ _ c hc hcne⟩
  · rw [hop]
    exact readEntry_writeCardFile_self s _ _ nowMs e hfile
  · rw [hop]
    rfl
  · intro name hname
    rw [hop]
    exact readEntry_writeCardFile_other s _ _ nowMs name hname

/-- C7 (witness): the amended theorem applied to a concrete existing
card: `createdAt` stays `T0`, `updatedAt` becomes `T1`, the title and
body become the given inputs, and only `c1.md` changes. -/
theorem claim_C7_witness :
    (updateCardS (txt "T1") 5 (Json.obj [(txt "cardId", Json.str (txt "c1")), (txt "title", Json.str (txt "Updated")), (txt "detail", Json.str (txt "Next"))]) ({ index := none, files := [(txt "c1.md", (⟨.file, txt "---\nid: c1\ntitle: Old\ncreatedAt: T0\nupdatedAt: T0\n---\nOld body", 0, 0⟩ : DirEntry))] } : Store)) =
      (.ok (), writeCardFile ({ index := none, files := [(txt "c1.md", (⟨.file, txt "---\nid: c1\ntitle: Old\ncreatedAt: T0\nupdatedAt: T0\n---\nOld body", 0, 0⟩ : DirEntry))] } : Store) (mdName (txt "c1")) (serializeFrontMatter (updatedMeta (parseFrontMatter (⟨.file, txt "---\nid: c1\ntitle: Old\ncreatedAt: T0\nupdatedAt: T0\n---\nOld body", 0, 0⟩ : DirEntry).content).meta (txt "c1") (txt "Updated") none (txt "T1")) (txt "Next")) 5) ∧
    readEntry (updateCardS (txt "T1") 5 (Json.obj [(txt "cardId", Json.str (txt "c1")), (txt "title", Json.str (txt "Updated")), (txt "detail", Json.str (txt "Next"))]) ({ index := none, files := [(txt "c1.md", (⟨.file, txt "---\nid: c1\ntitle: Old\ncreatedAt: T0\nupdatedAt: T0\n---\nOld body", 0, 0⟩ : DirEntry))] } : Store)).2 (mdName (txt "c1")) =
      some { (⟨.file, txt "---\nid: c1\ntitle: Old\ncreatedAt: T0\nupdatedAt: T0\n---\nOld body", 0, 0⟩ : DirEntry) with content := (serializeFrontMatter (updatedMeta (parseFrontMatter (⟨.file, txt "---\nid: c1\ntitle: Old\ncreatedAt: T0\nupdatedAt: T0\n---\nOld body", 0, 0⟩ : DirEntry).content).meta (txt "c1") (txt "Updated") none (txt "T1")) (txt "Next")), mtime := 5 } ∧
    (updateCardS (txt "T1") 5 (Json.obj [(txt "cardId", Json.str (txt "c1")), (txt "title", Json.str (txt "Updated")), (txt "detail", Json.str (txt "Next"))]) ({ index := none, files := [(txt "c1.md", (⟨.file, txt "---\nid: c1\ntitle: Old\ncreatedAt: T0\nupdatedAt: T0\n---\nOld body", 0, 0⟩ : DirEntry))] } : Store)).2.index = ({ index := none, files := [(txt "c1.md", (⟨.file, txt "---\nid: c1\ntitle: Old\ncreatedAt: T0\nupdatedAt: T0\n---\nOld body", 0, 0⟩ : DirEntry))] } : Store).index ∧
    (∀ name, name ≠ mdName (txt "c1") →
      readEntry (updateCardS (txt "T1") 5 (Json.obj [(txt "cardId", Json.str (txt "c1")), (txt "title", Json.str (txt "Updated")), (txt "detail", Json.str (txt "Next"))]) ({ index := none, files := [(txt "c1.md", (⟨.file, txt "---\nid: c1\ntitle: Old\ncreatedAt: T0\nupdatedAt: T0\n---\nOld body", 0, 0⟩ : DirEntry))] } : Store)).2 name = readEntry ({ index := none, files := [(txt "c1.md", (⟨.file, txt "---\nid: c1\ntitle: Old\ncreatedAt: T0\nupdatedAt: T0\n---\nOld body", 0, 0⟩ : DirEntry))] } : Store) name) ∧
    metaLookup (updatedMeta (parseFrontMatter (⟨.file, txt "---\nid: c1\ntitle: Old\ncreatedAt: T0\nupdatedAt: T0\n---\nOld body", 0, 0⟩ : DirEntry).content).meta (txt "c1") (txt "Updated") none (txt "T1")) (txt "updatedAt") = some (some (txt "T1")) ∧
    metaLookup (updatedMeta (parseFrontMatter (⟨.file, txt "---\nid: c1\ntitle: Old\ncreatedAt: T0\nupdatedAt: T0\n---\nOld body", 0, 0⟩ : DirEntry).content).meta (txt "c1") (txt "Updated") none (txt "T1")) (txt "title") = some (some (trimL (txt "Updated"))) ∧
    (∀ c, metaLookup (parseFrontMatter (⟨.file, txt "---\nid: c1\ntitle: Old\ncreatedAt: T0\nupdatedAt: T0\n---\nOld body", 0, 0⟩ : DirEntry).content).meta (txt "createdAt") = some (some c) → c ≠ [] →
      metaLookup (updatedMeta (parseFrontMatter (⟨.file, txt "---\nid: c1\ntitle: Old\ncreatedAt: T0\nupdatedAt: T0\n---\nOld body", 0, 0⟩ : DirEntry).content).meta (txt "c1") (txt "Updated") none (txt "T1")) (txt "createdAt") = some (some c)) ∧
    metaLookup (updatedMeta (parseFrontMatter (⟨.file, txt "---\nid: c1\ntitle: Old\ncreatedAt: T0\nupdatedAt: T0\n---\nOld body", 0, 0⟩ : DirEntry).content).meta (txt "c1") (txt "Updated") none (txt "T1")) (txt "createdAt") = some (some (txt "T0")) ∧
    (parseFrontMatter (serializeFrontMatter (updatedMeta (parseFrontMatter (⟨.file, txt "---\nid: c1\ntitle: Old\ncreatedAt: T0\nupdatedAt: T0\n---\nOld body", 0, 0⟩ : DirEntry).content).meta (txt "c1") (txt "Updated") none (txt "T1")) (txt "Next"))).body = txt "Next" := by
  obtain ⟨ha, hb, hc, hd, he, hf, hg⟩ :=
    claim_C7_updateCard ({ index := none, files := [(txt "c1.md", (⟨.file, txt "---\nid: c1\ntitle: Old\ncreatedAt: T0\nupdatedAt: T0\n---\nOld body", 0, 0⟩ : DirEntry))] } : Store)
      (Json.obj [(txt "cardId", Json.str (txt "c1")), (txt "title", Json.str (txt "Updated")), (txt "detail", Json.str (txt "Next"))])
      (txt "T1") 5 (txt "c1") (txt "Updated") (txt "Next") none (⟨.file, txt "---\nid: c1\ntitle: Old\ncreatedAt: T0\nupdatedAt: T0\n---\nOld body", 0, 0⟩ : DirEntry)
      rfl (by decide) rfl (by decide) rfl rfl rfl rfl
  exact ⟨ha, hb, hc, hd, he, hf, hg, hg (txt "T0") (by decide) (by decide),
    by decide⟩

/-- C9: `moveCard` and `reorderCards` do not validate their column ids:
with an unknown destination column they persist an index whose order map
has a key (`nope` / `zzz`) outside the columns set, violating the index
invariant on disk; on the next `readState` normalization drops the orphan
key and the affected card id, which still has a backing file, is
re-appended to the end of the first column's order list. -/
theorem claim_C9_unvalidated_columns :
    ((moveCardS (Json.obj [(txt "cardId", Json.str (txt "c1")), (txt "fromColumnId", Json.str (txt "a")), (txt "toColumnId", Json.str (txt "nope")), (txt "toIndex", Json.num 0)]) ({ index := some (.json (Json.obj [(txt "columns", Json.arr [Json.obj [(txt "id", Json.str (txt "a")), (txt "title", Json.str (txt "A"))], Json.obj [(txt "id", Json.str (txt "b")), (txt "title", Json.str (txt "B"))]]), (txt "order", Json.obj [(txt "a", Json.arr [Json.str (txt "c0"), Json.str (txt "c1")]), (txt "b", Json.arr [])])])), files := [(txt "c0.md", (⟨.file, txt "---\nid: c0\ntitle: T\ncreatedAt: T0\nupdatedAt: T0\n---\nbody", 0, 0⟩ : DirEntry)), (txt "c1.md", (⟨.file, txt "---\nid: c1\ntitle: T\ncreatedAt: T0\nupdatedAt: T0\n---\nbody", 0, 0⟩ : DirEntry))] } : Store)).1 = .ok () ∧
     (moveCardS (Json.obj [(txt "cardId", Json.str (txt "c1")), (txt "fromColumnId", Json.str (txt "a")), (txt "toColumnId", Json.str (txt "nope")), (txt "toIndex", Json.num 0)]) ({ index := some (.json (Json.obj [(txt "columns", Json.arr [Json.obj [(txt "id", Json.str (txt "a")), (txt "title", Json.str (txt "A"))], Json.obj [(txt "id", Json.str (txt "b")), (txt "title", Json.str (txt "B"))]]), (txt "order", Json.obj [(txt "a", Json.arr [Json.str (txt "c0"), Json.str (txt "c1")]), (txt "b", Json.arr [])])])), files := [(txt "c0.md", (⟨.file, txt "---\nid: c0\ntitle: T\ncreatedAt: T0\nupdatedAt: T0\n---\nbody", 0, 0⟩ : DirEntry)), (txt "c1.md", (⟨.file, txt "---\nid: c1\ntitle: T\ncreatedAt: T0\nupdatedAt: T0\n---\nbody", 0, 0⟩ : DirEntry))] } : Store)).2.index = some (.json (jsonOfIndex ⟨[⟨txt "a", txt "A"⟩, ⟨txt "b", txt "B"⟩], [(txt "a", [txt "c0"]), (txt "b", []), (txt "nope", [txt "c1"])]⟩)) ∧
     txt "nope" ∉ ([⟨txt "a", txt "A"⟩, ⟨txt "b", txt "B"⟩] : List Column).map Column.id ∧
     ordGet (readStateS (moveCardS (Json.obj [(txt "cardId", Json.str (txt "c1")), (txt "fromColumnId", Json.str (txt "a")), (txt "toColumnId", Json.str (txt "nope")), (txt "toIndex", Json.num 0)]) ({ index := some (.json (Json.obj [(txt "columns", Json.arr [Json.obj [(txt "id", Json.str (txt "a")), (txt "title", Json.str (txt "A"))], Json.obj [(txt "id", Json.str (txt "b")), (txt "title", Json.str (txt "B"))]]), (txt "order", Json.obj [(txt "a", Json.arr [Json.str (txt "c0"), Json.str (txt "c1")]), (txt "b", Json.arr [])])])), files := [(txt "c0.md", (⟨.file, txt "---\nid: c0\ntitle: T\ncreatedAt: T0\nupdatedAt: T0\n---\nbody", 0, 0⟩ : DirEntry)), (txt "c1.md", (⟨.file, txt "---\nid: c1\ntitle: T\ncreatedAt: T0\nupdatedAt: T0\n---\nbody", 0, 0⟩ : DirEntry))] } : Store)).2).1.order (txt "nope") = none ∧
     ordGet (readStateS (moveCardS (Json.obj [(txt "cardId", Json.str (txt "c1")), (txt "fromColumnId", Json.str (txt "a")), (txt "toColumnId", Json.str (txt "nope")), (txt "toIndex", Json.num 0)]) ({ index := some (.json (Json.obj [(txt "columns", Json.arr [Json.obj [(txt "id", Json.str (txt "a")), (txt "title", Json.str (txt "A"))], Json.obj [(txt "id", Json.str (txt "b")), (txt "title", Json.str (txt "B"))]]), (txt "order", Json.obj [(txt "a", Json.arr [Json.str (txt "c0"), Json.str (txt "c1")]), (txt "b", Json.arr [])])])), files := [(txt "c0.md", (⟨.file, txt "---\nid: c0\ntitle: T\ncreatedAt: T0\nupdatedAt: T0\n---\nbody", 0, 0⟩ : DirEntry)), (txt "c1.md", (⟨.file, txt "---\nid: c1\ntitle: T\ncreatedAt: T0\nupdatedAt: T0\n---\nbody", 0, 0⟩ : DirEntry))] } : Store)).2).1.order (txt "a") =
       some [txt "c0", txt "c1"]) ∧
    ((reorderCardsS (Json.obj [(txt "columnId", Json.str (txt "zzz")), (txt "orderedIds", Json.arr [Json.str (txt "c1")])]) ({ index := some (.json (Json.obj [(txt "columns", Json.arr [Json.obj [(txt "id", Json.str (txt "a")), (txt "title", Json.str (txt "A"))], Json.obj [(txt "id", Json.str (txt "b")), (txt "title", Json.str (txt "B"))]]), (txt "order", Json.obj [(txt "a", Json.arr [Json.str (txt "c0")]), (txt "b", Json.arr [])])])), files := [(txt "c0.md", (⟨.file, txt "---\nid: c0\ntitle: T\ncreatedAt: T0\nupdatedAt: T0\n---\nbody", 0, 0⟩ : DirEntry)), (txt "c1.md", (⟨.file, txt "---\nid: c1\ntitle: T\ncreatedAt: T0\nupdatedAt: T0\n---\nbody", 0, 0⟩ : DirEntry))] } : Store)).1 = .ok () ∧
     (reorderCardsS (Json.obj [(txt "columnId", Json.str (txt "zzz")), (txt "orderedIds", Json.arr [Json.str (txt "c1")])]) ({ index := some (.json (Json.obj [(txt "columns", Json.arr [Json.obj [(txt "id", Json.str (txt "a")), (txt "title", Json.str (txt "A"))], Json.obj [(txt "id", Json.str (txt "b")), (txt "title", Json.str (txt "B"))]]), (txt "order", Json.obj [(txt "a", Json.arr [Json.str (txt "c0")]), (txt "b", Json.arr [])])])), files := [(txt "c0.md", (⟨.file, txt "---\nid: c0\ntitle: T\ncreatedAt: T0\nupdatedAt: T0\n---\nbody", 0, 0⟩ : DirEntry)), (txt "c1.md", (⟨.file, txt "---\nid: c1\ntitle: T\ncreatedAt: T0\nupdatedAt: T0\n---\nbody", 0, 0⟩ : DirEntry))] } : Store)).2.index = some (.json (jsonOfIndex ⟨[⟨txt "a", txt "A"⟩, ⟨txt "b", txt "B"⟩], [(txt "a", [txt "c0"]), (txt "b", []), (txt "zzz", [txt "c1"])]⟩)) ∧
     txt "zzz" ∉ ([⟨txt "a", txt "A"⟩, ⟨txt "b", txt "B"⟩] : List Column).map Column.id ∧
     ordGet (readStateS (reorderCardsS (Json.obj [(txt "columnId", Json.str (txt "zzz")), (txt "orderedIds", Json.arr [Json.str (txt "c1")])]) ({ index := some (.json (Json.obj [(txt "columns", Json.arr [Json.obj [(txt "id", Json.str (txt "a")), (txt "title", Json.str (txt "A"))], Json.obj [(txt "id", Json.str (txt "b")), (txt "title", Json.str (txt "B"))]]), (txt "order", Json.obj [(txt "a", Json.arr [Json.str (txt "c0")]), (txt "b", Json.arr [])])])), files := [(txt "c0.md", (⟨.file, txt "---\nid: c0\ntitle: T\ncreatedAt: T0\nupdatedAt: T0\n---\nbody", 0, 0⟩ : DirEntry)), (txt "c1.md", (⟨.file, txt "---\nid: c1\ntitle: T\ncreatedAt: T0\nupdatedAt: T0\n---\nbody", 0, 0⟩ : DirEntry))] } : Store)).2).1.order (txt "zzz") = none ∧
     ordGet (readStateS (reorderCardsS (Json.obj [(txt "columnId", Json.str (txt "zzz")), (txt "orderedIds", Json.arr [Json.str (txt "c1")])]) ({ index := some (.json (Json.obj [(txt "columns", Json.arr [Json.obj [(txt "id", Json.str (txt "a")), (txt "title", Json.str (txt "A"))], Json.obj [(txt "id", Json.str (txt "b")), (txt "title", Json.str (txt "B"))]]), (txt "order", Json.obj [(txt "a", Json.arr [Json.str (txt "c0")]), (txt "b", Json.arr [])])])), files := [(txt "c0.md", (⟨.file, txt "---\nid: c0\ntitle: T\ncreatedAt: T0\nupdatedAt: T0\n---\nbody", 0, 0⟩ : DirEntry)), (txt "c1.md", (⟨.file, txt "---\nid: c1\ntitle: T\ncreatedAt: T0\nupdatedAt: T0\n---\nbody", 0, 0⟩ : DirEntry))] } : Store)).2).1.order (txt "a") =
       some [txt "c0", txt "c1"]) :=
  ⟨⟨rfl, rfl, by decide, rfl, rfl⟩, ⟨rfl, rfl, by decide, rfl, rfl⟩⟩

section RoundTrip

theorem splitLines_ne_nil (s : Str) : splitLines s ≠ [] := by
  match s with
  | [] => simp [splitLines]
  | '\r' :: '\n' :: rest => simp [splitLines]
  | '\n' :: rest => simp [splitLines]
  | c :: rest =>
    unfold splitLines
    split
    · simp
    · simp
    · simp
    · split <;> simp

theorem splitLines_newline (rest : Str) :
    splitLines ('\n' :: rest) = [] :: splitLines rest := rfl

theorem splitLines_cons_eq (c : Char) (t : Str) (l : Str) (ls : List Str)
    (hc : c ≠ '\n') (hcr : ¬(c = '\r' ∧ t.head? = some '\n'))
    (h : splitLines t = l :: ls) :
    splitLines (c :: t) = (c :: l) :: ls := by
  conv_lhs => rw [splitLines.eq_def]
  split
  · rename_i heq
    exact absurd heq (by simp)
  · rename_i rest heq
    injection heq with h1 h2
    subst h1
    exact absurd ⟨rfl, by rw [h2]; rfl⟩ hcr
  · rename_i rest heq
    injection heq with h1 h2
    exact absurd h1 hc
  · rename_i c' rest hno1 hno2 heq
    injection heq with h1 h2
    subst h1
    subst h2
    rw [h]

theorem hasCRLF_cons_eq (c : Char) (t : Str)
    (hcr : ¬(c = '\r' ∧ t.head? = some '\n')) :
    hasCRLF (c :: t) = hasCRLF t := by
  conv_lhs => rw [hasCRLF.eq_def]
  split
  · rename_i rest heq
    injection heq with h1 h2
    subst h1
    exact absurd ⟨rfl, by rw [h2]; rfl⟩ hcr
  · rename_i c' rest hno heq
    injection heq with h1 h2
    rw [h2]
  · rename_i heq
    exact absurd heq (by simp)

theorem joinLines_cons_of_ne_nil (sep : Char) (l : Str) (ls : List Str)
    (h : ls ≠ []) : joinLines sep (l :: ls) = l ++ sep :: joinLines sep ls := by
  match ls, h with
  | l' :: ls', _ => rfl

theorem splitLines_append (l : Str) (s : Str)
    (h1 : '\n' ∉ l) (h2 : l.getLast? ≠ some '\r') :
    splitLines (l ++ '\n' :: s) = l :: splitLines s := by
  induction l with
  | nil => rfl
  | cons c l' ih =>
    simp only [List.mem_cons, not_or] at h1
    match l' with
    | [] =>
      have hc : c ≠ '\r' := by simpa using h2
      simp only [List.cons_append, List.nil_append]
      exact splitLines_cons_eq c ('\n' :: s) [] (splitLines s)
        (Ne.symm h1.1)
        (by
          intro hcon
          exact hc hcon.1)
        rfl
    | c' :: l'' =>
      have hrec : splitLines (c' :: l'' ++ '\n' :: s) =
          (c' :: l'') :: splitLines s :=
        ih h1.2 (by simpa using h2)
      rw [List.cons_append]
      exact splitLines_cons_eq c (c' :: l'' ++ '\n' :: s) (c' :: l'')
        (splitLines s) (Ne.symm h1.1)
        (by
          intro hcon
          have hcn : c' = '\n' := by simpa using hcon.2
          exact h1.2 (by rw [hcn]; exact List.mem_cons_self _ _))
        hrec

theorem joinLines_splitLines_bounded :
    ∀ n (b : Str), b.length ≤ n → hasCRLF b = false →
      joinLines '\n' (splitLines b) = b := by
  intro n
  induction n with
  | zero =>
    intro b hlen _
    match b, hlen with
    | [], _ => rfl
  | succ n ih =>
    intro b hlen hb
    match b with
    | [] => rfl
    | c :: t =>
      have hlt : t.length ≤ n := by simpa using hlen
      by_cases hc : c = '\n'
      · subst hc
        rw [splitLines_newline,
          joinLines_cons_of_ne_nil '\n' [] (splitLines t) (splitLines_ne_nil t)]
        have hb' : hasCRLF t = false := by
          rwa [hasCRLF_cons_eq '\n' t (by simp)] at hb
        rw [ih t hlt hb']
        rfl
      · have hcr : ¬(c = '\r' ∧ t.head? = some '\n') := by
          intro hcon
          obtain ⟨hc', hh⟩ := hcon
          subst hc'
          match t, hh, hb with
          | [], hh, _ => simp at hh
          | r :: t', hh, hb =>
            have hr : r = '\n' := by simpa using hh
            subst hr
            rw [show hasCRLF ('\r' :: '\n' :: t') = true from rfl] at hb
            exact Bool.noConfusion hb
        obtain ⟨l, ls, hsplit⟩ : ∃ l ls, splitLines t = l :: ls := by
          match hsp : splitLines t with
          | [] => exact absurd hsp (splitLines_ne_nil t)
          | l :: ls => exact ⟨l, ls, rfl⟩
        rw [splitLines_cons_eq c t l ls hc hcr hsplit]
        have hb' : hasCRLF t = false := by
          rwa [hasCRLF_cons_eq c t hcr] at hb
        have hjoin := ih t hlt hb'
        rw [hsplit] at hjoin
        match ls, hjoin with
        | [], hjoin =>
          simp only [joinLines] at hjoin ⊢
          rw [← hjoin]
        | l' :: ls', hjoin =>
          rw [joinLines_cons_of_ne_nil '\n' (c :: l) (l' :: ls') (by simp)]
          rw [joinLines_cons_of_ne_nil '\n' l (l' :: ls') (by simp)] at hjoin
          rw [List.cons_append, hjoin]

theorem joinLines_splitLines (b : Str) (hb : hasCRLF b = false) :
    joinLines '\n' (splitLines b) = b :=
  joinLines_splitLines_bounded b.length b (le_refl _) hb

theorem trimL_ne_nil (l : Str) (c : Char) (hc : c ∈ l) (hws : isWS c = false) :
    trimL l ≠ [] := by
  intro hnil
  unfold trimL at hnil
  rw [List.reverse_eq_nil_iff, List.dropWhile_eq_nil_iff] at hnil
  have hall : ∀ x ∈ l.dropWhile isWS, isWS x = true := by
    intro x hx
    exact hnil x (List.mem_reverse.mpr hx)
  have : ∀ x ∈ l, isWS x = true := by
    intro x hx
    rw [← List.takeWhile_append_dropWhile (p := isWS) (l := l)] at hx
    rcases List.mem_append.mp hx with h | h
    · exact List.mem_takeWhile_imp h
    · exact hall x h
  rw [this c hc] at hws
  exact Bool.noConfusion hws

theorem trimL_cons_space (w : Str) : trimL (' ' :: w) = trimL w := by
  unfold trimL
  rw [List.dropWhile_cons, if_pos (by decide)]

theorem findIdx?_append_first {α : Type} (p : α → Bool) (xs : List α)
    (y : α) (ys : List α) (hxs : ∀ x ∈ xs, p x = false) (hy : p y = true) :
    ∀ i, List.findIdx? p (xs ++ y :: ys) i = some (i + xs.length) := by
  induction xs with
  | nil =>
    intro i
    simp [List.findIdx?_cons, hy]
  | cons x t ih =>
    intro i
    rw [List.cons_append, List.findIdx?_cons,
      if_neg (by simp [hxs x (List.mem_cons_self x t)])]
    rw [ih (fun a ha => hxs a (List.mem_cons_of_mem x ha)) (i + 1)]
    congr 1
    simp
    omega

/-- A metadata key that the codec round-trips: nonempty, already
trimmed, and free of `':'` and line breaks. -/
def goodKey (k : Str) : Prop :=
  k ≠ [] ∧ trimL k = k ∧ ':' ∉ k ∧ '\n' ∉ k ∧ '\r' ∉ k

/-- A metadata value that the codec round-trips: the null value, or a
nonempty already-trimmed string other than the literal `"null"`, free of
line breaks. -/
def goodVal : Option Str → Prop
  | none => True
  | some v => v ≠ [] ∧ v ≠ txt "null" ∧ trimL v = v ∧ '\n' ∉ v ∧ '\r' ∉ v

instance goodKey.instDecidable (k : Str) : Decidable (goodKey k) :=
  inferInstanceAs (Decidable (_ ∧ _ ∧ _ ∧ _ ∧ _))

instance goodVal.instDecidable : (v : Option Str) → Decidable (goodVal v)
  | none => isTrue trivial
  | some _ => inferInstanceAs (Decidable (_ ∧ _ ∧ _ ∧ _ ∧ _))

/-- A metadata mapping that the codec round-trips: unique keys, each
entry well-behaved. -/
def goodMeta (m : Meta) : Prop :=
  (m.map Prod.fst).Nodup ∧ ∀ p ∈ m, goodKey p.1 ∧ goodVal p.2

theorem parseMetaLine_fmtLine (m : Meta) (k : Str) (v : Option Str)
    (hk : goodKey k) (hv : goodVal v) :
    parseMetaLine m (fmtLine k v) = metaInsert m k v := by
  obtain ⟨hk1, hk2, hk3, hk4, hk5⟩ := hk
  have hline : trimL (fmtLine k v) ≠ [] :=
    trimL_ne_nil _ ':' (by simp [fmtLine]) (by decide)
  have hfind : (fmtLine k v).findIdx? (· == ':') = some k.length := by
    unfold fmtLine
    have := findIdx?_append_first (· == ':') k ':' (' ' :: v.getD (txt "null"))
      (fun x hx => by
        simp only [beq_eq_false_iff_ne, ne_eq]
        intro hcol
        exact hk3 (hcol ▸ hx))
      (by simp) 0
    simpa using this
  have htake : (fmtLine k v).take k.length = k := by
    unfold fmtLine
    exact List.take_left k _
  have hdrop : (fmtLine k v).drop (k.length + 1) = ' ' :: v.getD (txt "null") := by
    unfold fmtLine
    have : k ++ ':' :: ' ' :: v.getD (txt "null") =
        (k ++ [':']) ++ ' ' :: v.getD (txt "null") := by simp
    rw [this, show k.length + 1 = (k ++ [':']).length by simp]
    exact List.drop_left _ _
  unfold parseMetaLine
  rw [if_neg hline, hfind]
  simp only [htake, hdrop, hk2, trimL_cons_space]
  rw [if_neg hk1]
  cases v with
  | none =>
    rw [if_pos (by right; decide)]
  | some vv =>
    obtain ⟨hv1, hv2, hv3, _, _⟩ := hv
    simp only [Option.getD_some]
    rw [hv3, if_neg (by simp [hv1, hv2])]

theorem foldl_parseMetaLine (pairs : Meta) :
    ∀ m0 : Meta, (∀ p ∈ pairs, goodKey p.1 ∧ goodVal p.2) →
      (pairs.map (fun p => fmtLine p.1 p.2)).foldl parseMetaLine m0 =
        pairs.foldl (fun m p => metaInsert m p.1 p.2) m0 := by
  induction pairs with
  | nil => intro m0 _; rfl
  | cons p t ih =>
    intro m0 hgood
    rw [List.map_cons, List.foldl_cons, List.foldl_cons,
      parseMetaLine_fmtLine m0 p.1 p.2 (hgood p (List.mem_cons_self p t)).1
        (hgood p (List.mem_cons_self p t)).2]
    exact ih _ (fun q hq => hgood q (List.mem_cons_of_mem p hq))

theorem metaInsert_of_lookup_none (m : Meta) (k : Str) (v : Option Str)
    (h : metaLookup m k = none) : metaInsert m k v = m ++ [(k, v)] := by
  induction m with
  | nil => rfl
  | cons p t ih =>
    rw [metaLookup_cons] at h
    by_cases hp : p.1 = k
    · rw [if_pos hp] at h
      exact Option.noConfusion h
    · rw [if_neg hp] at h
      rw [metaInsert, if_neg hp, ih h]
      rfl

theorem metaLookup_append (a b : Meta) (k : Str) :
    metaLookup (a ++ b) k = (metaLookup a k).or (metaLookup b k) := by
  unfold metaLookup
  rw [List.find?_append]
  cases a.find? (·.1 == k) <;> simp

theorem foldl_metaInsert_append (pairs : Meta) :
    ∀ m0 : Meta, (∀ p ∈ pairs, metaLookup m0 p.1 = none) →
      (pairs.map Prod.fst).Nodup →
      pairs.foldl (fun m p => metaInsert m p.1 p.2) m0 = m0 ++ pairs := by
  induction pairs with
  | nil => intro m0 _ _; simp
  | cons p t ih =>
    intro m0 hnone hnd
    simp only [List.map_cons, List.nodup_cons] at hnd
    rw [List.foldl_cons,
      metaInsert_of_lookup_none m0 p.1 p.2 (hnone p (List.mem_cons_self p t))]
    rw [ih (m0 ++ [(p.1, p.2)]) ?_ hnd.2]
    · simp
    · intro q hq
      rw [metaLookup_append, hnone q (List.mem_cons_of_mem p hq)]
      have hqp : ¬ q.1 = p.1 := by
        intro heq
        exact hnd.1 (heq ▸ List.mem_map_of_mem Prod.fst hq)
      simp [metaLookup_cons, Ne.symm hqp, metaLookup]

theorem metaLookup_filterMap (m : Meta) (ks : List Str) (k : Str) :
    ∀ (_ : ks.Nodup),
      metaLookup (ks.filterMap fun j => (metaLookup m j).map fun v => (j, v))
          k =
        if k ∈ ks then metaLookup m k else none := by
  induction ks with
  | nil => intro _; simp [metaLookup]
  | cons j t ih =>
    intro hnd
    simp only [List.nodup_cons] at hnd
    cases hmj : metaLookup m j with
    | none =>
      rw [List.filterMap_cons, hmj]
      simp only [Option.map_none']
      rw [ih hnd.2]
      by_cases hk : k = j
      · subst hk
        simp [hnd.1, hmj]
      · simp [hk]
    | some v =>
      rw [List.filterMap_cons, hmj]
      simp only [Option.map_some']
      rw [metaLookup_cons]
      by_cases hk : j = k
      · subst hk
        simp [hmj]
      · rw [if_neg hk, ih hnd.2]
        simp [Ne.symm hk]

theorem metaLookup_filter_keep (m : Meta) (q : Str × Option Str → Bool)
    (k : Str) (hq : ∀ v, q (k, v) = true) :
    metaLookup (m.filter q) k = metaLookup m k := by
  induction m with
  | nil => rfl
  | cons p t ih =>
    by_cases hp : p.1 = k
    · have hpk : p = (k, p.2) := by
        rw [← hp]
      have : q p = true := by rw [hpk]; exact hq p.2
      rw [List.filter_cons, if_pos this, metaLookup_cons, if_pos hp,
        metaLookup_cons, if_pos hp]
    · rw [List.filter_cons]
      by_cases hqp : q p = true
      · rw [if_pos hqp, metaLookup_cons, if_neg hp, metaLookup_cons,
          if_neg hp, ih]
      · rw [if_neg hqp, metaLookup_cons, if_neg hp, ih]

theorem metaLookup_eq_none_of_keys (m : Meta) (k : Str)
    (h : ∀ p ∈ m, p.1 ≠ k) : metaLookup m k = none := by
  unfold metaLookup
  rw [List.find?_eq_none.mpr]
  · rfl
  · intro p hp
    simpa using h p hp

theorem metaLookup_some_mem (m : Meta) (k : Str) (v : Option Str)
    (h : metaLookup m k = some v) : (k, v) ∈ m := by
  unfold metaLookup at h
  cases hf : m.find? (·.1 == k) with
  | none => rw [hf] at h; exact Option.noConfusion h
  | some p =>
    rw [hf] at h
    simp only [Option.map_some'] at h
    have hp1 : p.1 = k := by simpa using List.find?_some hf
    have hmem := List.mem_of_find?_eq_some hf
    injection h with hv
    have : p = (k, v) := by
      rw [← hp1, ← hv]
    exact this ▸ hmem

theorem map_fst_filterMap (m : Meta) (ks : List Str) :
    (ks.filterMap fun j => (metaLookup m j).map fun v => (j, v)).map
        Prod.fst =
      ks.filter fun j => (metaLookup m j).isSome := by
  induction ks with
  | nil => rfl
  | cons j t ih =>
    cases hmj : metaLookup m j with
    | none =>
      rw [List.filterMap_cons, hmj, List.filter_cons]
      simp only [Option.map_none', hmj, Option.isSome_none]
      rw [if_neg (by simp)]
      exact ih
    | some v =>
      rw [List.filterMap_cons, hmj, List.filter_cons]
      simp only [Option.map_some', hmj, Option.isSome_some]
      simp [ih]

theorem fmtLines_eq_map (m : Meta) (ks : List Str) :
    (ks.filterMap fun k => (metaLookup m k).map (fmtLine k)) =
      (ks.filterMap fun j => (metaLookup m j).map fun v => (j, v)).map
        fun p => fmtLine p.1 p.2 := by
  induction ks with
  | nil => rfl
  | cons j t ih =>
    cases hmj : metaLookup m j with
    | none =>
      rw [List.filterMap_cons, List.filterMap_cons, hmj]
      simpa using ih
    | some v =>
      rw [List.filterMap_cons, List.filterMap_cons, hmj]
      simpa using ih

theorem fmtLine_good (k : Str) (v : Option Str) (hk : goodKey k)
    (hv : goodVal v) :
    '\n' ∉ fmtLine k v ∧ (fmtLine k v).getLast? ≠ some '\r' := by
  obtain ⟨hk1, hk2, hk3, hk4, hk5⟩ := hk
  have hw : v.getD (txt "null") ≠ [] ∧ '\n' ∉ v.getD (txt "null") ∧
      '\r' ∉ v.getD (txt "null") := by
    cases v with
    | none => refine ⟨by decide, by decide, by decide⟩
    | some vv => exact ⟨hv.1, hv.2.2.2.1, hv.2.2.2.2⟩
  constructor
  · unfold fmtLine
    simp only [List.mem_append, List.mem_cons, not_or]
    exact ⟨hk4, by decide, by decide, hw.2.1⟩
  · unfold fmtLine
    rw [show (k ++ ':' :: ' ' :: v.getD (txt "null")) =
        (k ++ [':', ' ']) ++ v.getD (txt "null") by simp]
    rw [List.getLast?_append_of_ne_nil _ hw.1]
    intro hlast
    exact hw.2.2 (List.mem_of_getLast?_eq_some hlast)

theorem fmtLine_ne_sep (k : Str) (v : Option Str) :
    fmtLine k v ≠ txt "---" := by
  intro h
  have : ':' ∈ txt "---" := by
    rw [← h]
    unfold fmtLine
    simp
  exact absurd this (by decide)

theorem splitLines_joinLines_append (ls : List Str) (last : Str)
    (h : ∀ l ∈ ls, '\n' ∉ l ∧ l.getLast? ≠ some '\r') :
    splitLines (joinLines '\n' (ls ++ [last])) = ls ++ splitLines last := by
  induction ls with
  | nil => rfl
  | cons l ls' ih =>
    rw [List.cons_append,
      joinLines_cons_of_ne_nil '\n' l (ls' ++ [last]) (by simp)]
    rw [splitLines_append l _ (h l (List.mem_cons_self l ls')).1
      (h l (List.mem_cons_self l ls')).2]
    rw [ih (fun x hx => h x (List.mem_cons_of_mem l hx))]
    rfl

theorem goodKey_known : ∀ j ∈ knownKeys, goodKey j := by decide

/-- C1 (amended): `parse ∘ serialize` round-trips the metadata mapping
(as a key-value map) and the body exactly, for every metadata mapping
with unique, trimmed, nonempty keys free of `':'` and line breaks, whose
string values are nonempty, trimmed, not the literal `"null"` and free of
line breaks, and every body free of CRLF pairs — in particular bodies
with embedded `':'` characters or blank lines. -/
theorem claim_C1_roundtrip (m : Meta) (b : Str)
    (hm : goodMeta m) (hb : hasCRLF b = false) :
    (∀ k, metaLookup (parseFrontMatter (serializeFrontMatter m b)).meta k =
      metaLookup m k) ∧
    (parseFrontMatter (serializeFrontMatter m b)).body = b := by
  obtain ⟨hnd, hgood⟩ := hm
  set kPairs := knownKeys.filterMap
    (fun j => (metaLookup m j).map (fun v => (j, v))) with hkP
  set rPairs := m.filter (fun p => !(knownKeys.contains p.1)) with hrP
  have hkgood : ∀ p ∈ kPairs, goodKey p.1 ∧ goodVal p.2 := by
    intro p hp
    rw [hkP, List.mem_filterMap] at hp
    obtain ⟨j, hj, hf⟩ := hp
    rw [Option.map_eq_some'] at hf
    obtain ⟨v, hv, rfl⟩ := hf
    exact ⟨goodKey_known j hj, (hgood (j, v) (metaLookup_some_mem m j v hv)).2⟩
  have hrgood : ∀ p ∈ rPairs, goodKey p.1 ∧ goodVal p.2 := by
    intro p hp
    rw [hrP, List.mem_filter] at hp
    exact hgood p hp.1
  have hallgood : ∀ p ∈ kPairs ++ rPairs, goodKey p.1 ∧ goodVal p.2 := by
    intro p hp
    rcases List.mem_append.mp hp with h | h
    · exact hkgood p h
    · exact hrgood p h
  have hser : serializeFrontMatter m b =
      joinLines '\n'
        ((txt "---" ::
          ((kPairs ++ rPairs).map (fun p => fmtLine p.1 p.2) ++ [txt "---"]))
          ++ [b]) := by
    unfold serializeFrontMatter
    rw [fmtLines_eq_map m knownKeys]
    simp [hkP, hrP, List.map_append, List.append_assoc]
  have hsplitEq : splitLines (serializeFrontMatter m b) =
      (txt "---" ::
        ((kPairs ++ rPairs).map (fun p => fmtLine p.1 p.2) ++ [txt "---"]))
        ++ splitLines b := by
    rw [hser]
    apply splitLines_joinLines_append
    intro l hl
    rcases List.mem_cons.mp hl with h | h
    · subst h
      exact ⟨by decide, by decide⟩
    · rcases List.mem_append.mp h with h | h
      · rw [List.mem_map] at h
        obtain ⟨p, hp, rfl⟩ := h
        exact fmtLine_good p.1 p.2 (hallgood p hp).1 (hallgood p hp).2
      · rw [List.mem_singleton] at h
        subst h
        exact ⟨by decide, by decide⟩
  have hrest : (((kPairs ++ rPairs).map (fun p => fmtLine p.1 p.2) ++
      [txt "---"]) ++ splitLines b) =
      ((kPairs ++ rPairs).map (fun p => fmtLine p.1 p.2) ++
        (txt "---" :: splitLines b)) := by
    simp [List.append_assoc]
  have hfind : ((kPairs ++ rPairs).map (fun p => fmtLine p.1 p.2) ++
      (txt "---" :: splitLines b)).findIdx? (· == txt "---") =
      some ((kPairs ++ rPairs).map (fun p => fmtLine p.1 p.2)).length := by
    have := findIdx?_append_first (· == txt "---")
      ((kPairs ++ rPairs).map (fun p => fmtLine p.1 p.2)) (txt "---")
      (splitLines b)
      (by
        intro l hl
        rw [List.mem_map] at hl
        obtain ⟨p, _, rfl⟩ := hl
        simpa using fmtLine_ne_sep p.1 p.2)
      (by simp) 0
    simpa using this
  have hkeysnd : ((kPairs ++ rPairs).map Prod.fst).Nodup := by
    rw [List.map_append, List.nodup_append]
    refine ⟨?_, ?_, ?_⟩
    · rw [hkP, map_fst_filterMap]
      exact (by decide : knownKeys.Nodup).filter _
    · rw [hrP]
      exact hnd.sublist ((List.filter_sublist m).map Prod.fst)
    · intro x hx1 hx2
      rw [hkP, map_fst_filterMap, List.mem_filter] at hx1
      rw [hrP, List.mem_map] at hx2
      obtain ⟨p, hp, rfl⟩ := hx2
      rw [List.mem_filter] at hp
      have : p.1 ∉ knownKeys := by simpa using hp.2
      exact this hx1.1
  have hfold : ((kPairs ++ rPairs).map (fun p => fmtLine p.1 p.2)).foldl
      parseMetaLine [] = kPairs ++ rPairs := by
    rw [foldl_parseMetaLine (kPairs ++ rPairs) [] hallgood]
    rw [foldl_metaInsert_append (kPairs ++ rPairs) []
      (fun p _ => rfl) hkeysnd]
    rfl
  have hparse : parseFrontMatter (serializeFrontMatter m b) =
      ⟨kPairs ++ rPairs, b⟩ := by
    unfold parseFrontMatter
    rw [hsplitEq]
    simp only [List.cons_append]
    rw [if_neg (by simp)]
    rw [hrest, hfind]
    dsimp only
    rw [List.take_left, hfold]
    have hdrop : ((kPairs ++ rPairs).map (fun p => fmtLine p.1 p.2) ++
        (txt "---" :: splitLines b)).drop
        (((kPairs ++ rPairs).map (fun p => fmtLine p.1 p.2)).length + 1) =
        splitLines b := by
      rw [show ((kPairs ++ rPairs).map (fun p => fmtLine p.1 p.2) ++
          (txt "---" :: splitLines b)) =
          (((kPairs ++ rPairs).map (fun p => fmtLine p.1 p.2) ++ [txt "---"])
            ++ splitLines b) by simp,
        show (((kPairs ++ rPairs).map (fun p => fmtLine p.1 p.2)).length + 1) =
          ((kPairs ++ rPairs).map (fun p => fmtLine p.1 p.2) ++
            [txt "---"]).length by simp; omega]
      exact List.drop_left _ _
    rw [hdrop, joinLines_splitLines b hb]
  rw [hparse]
  refine ⟨?_, rfl⟩
  intro k
  show metaLookup (kPairs ++ rPairs) k = metaLookup m k
  rw [metaLookup_append]
  by_cases hkk : k ∈ knownKeys
  · rw [hkP, metaLookup_filterMap m knownKeys k (by decide), if_pos hkk]
    cases hmk : metaLookup m k with
    | some v => rfl
    | none =>
      simp only [Option.none_or]
      apply metaLookup_eq_none_of_keys
      intro p hp
      rw [hrP, List.mem_filter] at hp
      intro heq
      exact (by simpa using hp.2 : p.1 ∉ knownKeys) (heq ▸ hkk)
  · rw [hkP, metaLookup_filterMap m knownKeys k (by decide), if_neg hkk]
    simp only [Option.none_or]
    rw [hrP]
    apply metaLookup_filter_keep
    intro v
    simpa using hkk

instance goodMeta.instDecidable (m : Meta) : Decidable (goodMeta m) :=
  inferInstanceAs (Decidable (_ ∧ _))

/-- C1 (counterexample): the round-trip fails on general metadata and
bodies: an empty-string value decodes back as the null value, a value
with surrounding whitespace comes back trimmed, and a CRLF line break in
the body comes back as a bare LF. -/
theorem claim_C1_counterexample :
    (metaLookup (parseFrontMatter (serializeFrontMatter
        [(txt "k", some ([] : Str))] (txt "x"))).meta (txt "k") =
        some none ∧
      some (none : Option Str) ≠ some (some ([] : Str))) ∧
    (metaLookup (parseFrontMatter (serializeFrontMatter
        [(txt "k", some (txt " v "))] (txt "x"))).meta (txt "k") =
        some (some (txt "v")) ∧
      txt "v" ≠ txt " v ") ∧
    ((parseFrontMatter (serializeFrontMatter [] (txt "a\r\nb"))).body =
        txt "a\nb" ∧
      txt "a\nb" ≠ txt "a\r\nb") := by
  refine ⟨⟨by decide, by decide⟩, ⟨by decide, by decide⟩,
    ⟨by decide, by decide⟩⟩

/-- C1 (witness): the amended round-trip theorem applied to a concrete
metadata mapping (known and unknown keys, a null value, values with
embedded `':'`) and a body with embedded `':'` characters and blank
lines. -/
theorem claim_C1_witness :
    goodMeta [(txt "title", some (txt "Hello: world")), (txt "due", none),
      (txt "extra", some (txt "note"))] ∧
    hasCRLF (txt "Body: text\n\nwith blank lines and : colons") = false ∧
    ((∀ k, metaLookup (parseFrontMatter (serializeFrontMatter
        [(txt "title", some (txt "Hello: world")), (txt "due", none),
         (txt "extra", some (txt "note"))]
        (txt "Body: text\n\nwith blank lines and : colons"))).meta k =
      metaLookup [(txt "title", some (txt "Hello: world")), (txt "due", none),
        (txt "extra", some (txt "note"))] k) ∧
     (parseFrontMatter (serializeFrontMatter
        [(txt "title", some (txt "Hello: world")), (txt "due", none),
         (txt "extra", some (txt "note"))]
        (txt "Body: text\n\nwith blank lines and : colons"))).body =
       txt "Body: text\n\nwith blank lines and : colons") :=
  ⟨by decide, by decide, claim_C1_roundtrip _ _ (by decide) (by decide)⟩

end RoundTrip

section ReadState

/-- The list a column keeps after `readState`'s existence filter. -/
def keptList (idx : IndexData) (fileIds : List Str) (k : Str) : List Str :=
  ((ordGet idx.order k).getD []).filter (fileIds.contains ·)

/-- The `readState` fallback column id: the first column, `"todo"` when
there are no columns (unreachable after normalization). -/
def fallbackIdOf (idx : IndexData) : Str :=
  (idx.columns.head?.map (·.id)).getD (txt "todo")

/-- The discovered ids that appear in no column's (filtered) order
list — exactly the ids `readState` appends to the fallback column. -/
def unorderedIds (idx : IndexData) (fileIds : List Str) : List Str :=
  fileIds.filter fun id =>
    !((idx.columns.map fun c => keptList idx fileIds c.id).flatten.contains id)

theorem foldl_readStateStep_spec (idx : IndexData) (fileIds : List Str)
    (cols : List Column) :
    ∀ (m0 : OrderMap) (b0 : Bool) (ids0 : List Str),
      (∀ k, ordGet (cols.foldl (readStateStep idx fileIds) (m0, b0, ids0)).1
          k =
        if k ∈ cols.map Column.id then some (keptList idx fileIds k)
        else ordGet m0 k) ∧
      (cols.foldl (readStateStep idx fileIds) (m0, b0, ids0)).2.1 =
        (b0 || cols.any fun c =>
          !(((ordGet idx.order c.id).getD []).all (fileIds.contains ·))) ∧
      (cols.foldl (readStateStep idx fileIds) (m0, b0, ids0)).2.2 =
        ids0 ++ (cols.map fun c => keptList idx fileIds c.id).flatten := by
  induction cols with
  | nil =>
    intro m0 b0 ids0
    refine ⟨fun k => by simp, by simp, by simp⟩
  | cons c rest ih =>
    intro m0 b0 ids0
    obtain ⟨ihA, ihB, ihC⟩ := ih (ordSet m0 c.id (keptList idx fileIds c.id))
      (b0 || !(((ordGet idx.order c.id).getD []).all (fileIds.contains ·)))
      (ids0 ++ keptList idx fileIds c.id)
    have hstep : readStateStep idx fileIds (m0, b0, ids0) c =
        (ordSet m0 c.id (keptList idx fileIds c.id),
         b0 || !(((ordGet idx.order c.id).getD []).all (fileIds.contains ·)),
         ids0 ++ keptList idx fileIds c.id) := rfl
    rw [List.foldl_cons, hstep]
    refine ⟨?_, ?_, ?_⟩
    · intro k
      rw [ihA k]
      by_cases hk : k ∈ rest.map Column.id
      · rw [if_pos hk, if_pos (by simp [hk])]
      · rw [if_neg hk]
        by_cases hkc : k = c.id
        · subst hkc
          rw [ordGet_ordSet_self, if_pos (by simp)]
        · rw [ordGet_ordSet_ne m0 c.id k _ hkc,
            if_neg (by simp [hk, hkc])]
    · rw [ihB]
      simp [Bool.or_assoc]
    · rw [ihC]
      simp

theorem foldl_push_spec (fb : Str) (ids : List Str) :
    ∀ (m0 : OrderMap) (v0 : List Str), ordGet m0 fb = some v0 →
      ordGet (ids.foldl
          (fun o id => ordSet o fb (((ordGet o fb).getD []) ++ [id])) m0) fb =
        some (v0 ++ ids) ∧
      (∀ k, k ≠ fb →
        ordGet (ids.foldl
          (fun o id => ordSet o fb (((ordGet o fb).getD []) ++ [id])) m0) k =
        ordGet m0 k) := by
  induction ids with
  | nil =>
    intro m0 v0 h0
    refine ⟨by simpa using h0, fun k _ => rfl⟩
  | cons i t ih =>
    intro m0 v0 h0
    have hset : ordGet (ordSet m0 fb (((ordGet m0 fb).getD []) ++ [i])) fb =
        some (v0 ++ [i]) := by
      rw [ordGet_ordSet_self, h0]
      rfl
    obtain ⟨ihA, ihB⟩ := ih (ordSet m0 fb (((ordGet m0 fb).getD []) ++ [i]))
      (v0 ++ [i]) hset
    refine ⟨?_, ?_⟩
    · rw [List.foldl_cons, ihA]
      simp
    · intro k hk
      rw [List.foldl_cons, ihB k hk, ordGet_ordSet_ne m0 fb k _ hk]

theorem mem_dedupF (x : Str) (l : List Str) (h : x ∈ dedupF l) : x ∈ l := by
  induction l with
  | nil => simp [dedupF] at h
  | cons y t ih =>
    rw [dedupF] at h
    rcases List.mem_cons.mp h with h | h
    · exact h ▸ List.mem_cons_self y t
    · exact List.mem_cons_of_mem y (ih (List.mem_filter.mp h).1)

theorem normalizeIndex_columns_ne_nil (j : Json) (idx : IndexData)
    (hn : normalizeIndex j = some idx) : idx.columns ≠ [] := by
  have hjn : j ≠ Json.null := by
    intro h
    rw [h] at hn
    exact Option.noConfusion hn
  rw [normalizeIndex_ne_null j hjn] at hn
  injection hn with hn
  rw [← hn]
  exact normalizeColumns_ne_nil j

/-- C3: for every store whose persisted index parses and normalizes, and
every set of card files on disk, `readState` (a) removes from each
column's order list every id with no backing card file, (b) appends every
discovered id that appears in no column's order list to the first
column's order list (the code's fallback, `"todo"` only when there are no
columns — normalization guarantees at least one), (c) persists the
repaired index exactly when anything changed, and (d) returns a cards map
with no entry for any id without a backing file, in particular for every
id it dropped. -/
theorem claim_C3_readState (s : Store) (j : Json) (idx : IndexData)
    (hj : s.index = some (.json j)) (hn : normalizeIndex j = some idx) :
    (readStateS s).1.columns = idx.columns ∧
    (∀ k, k ∈ idx.columns.map Column.id →
      ordGet (readStateS s).1.order k =
        some (keptList idx (cardFileIdsOf s.files) k ++
          (if k = fallbackIdOf idx then
            unorderedIds idx (cardFileIdsOf s.files) else []))) ∧
    (∀ k, k ∉ idx.columns.map Column.id →
      ordGet (readStateS s).1.order k = none) ∧
    (∀ c ∈ idx.columns, ∀ id ∈ (ordGet (readStateS s).1.order c.id).getD [],
      id ∈ cardFileIdsOf s.files) ∧
    (idx.columns ≠ [] ∧ fallbackIdOf idx ∈ idx.columns.map Column.id) ∧
    (∀ id ∈ cardFileIdsOf s.files,
      (∀ c ∈ idx.columns, id ∉ (ordGet idx.order c.id).getD []) →
      id ∈ (ordGet (readStateS s).1.order (fallbackIdOf idx)).getD []) ∧
    (((∃ c ∈ idx.columns, ∃ id ∈ (ordGet idx.order c.id).getD [],
        id ∉ cardFileIdsOf s.files) ∨
        unorderedIds idx (cardFileIdsOf s.files) ≠ []) →
      (readStateS s).2.index =
        some (.json (jsonOfIndex ⟨idx.columns, (readStateS s).1.order⟩))) ∧
    ((¬ ((∃ c ∈ idx.columns, ∃ id ∈ (ordGet idx.order c.id).getD [],
        id ∉ cardFileIdsOf s.files) ∨
        unorderedIds idx (cardFileIdsOf s.files) ≠ [])) →
      (readStateS s).2 = s) ∧
    (∀ id, id ∉ cardFileIdsOf s.files →
      (readStateS s).1.cards.find? (·.1 == id) = none) := by
  have hcne : idx.columns ≠ [] := normalizeIndex_columns_ne_nil j idx hn
  have hfbmem : fallbackIdOf idx ∈ idx.columns.map Column.id := by
    match hcols : idx.columns, hcne with
    | c :: rest, _ =>
      rw [fallbackIdOf, hcols]
      simp
  obtain ⟨hA, hB, hC⟩ := foldl_readStateStep_spec idx (cardFileIdsOf s.files)
    idx.columns [] false []
  unfold readStateS
  rw [readIndexS_clean s j idx hj hn]
  dsimp only
  generalize hst : idx.columns.foldl
    (readStateStep idx (cardFileIdsOf s.files)) ([], false, []) = st
  obtain ⟨o0, ch0, oids⟩ := st
  rw [hst] at hA hB hC
  dsimp only at hA hB hC ⊢
  have ho0 : ∀ k, ordGet o0 k =
      if k ∈ idx.columns.map Column.id
      then some (keptList idx (cardFileIdsOf s.files) k) else none := by
    intro k
    have := hA k
    by_cases hk : k ∈ idx.columns.map Column.id
    · rwa [if_pos hk] at this ⊢
    · rw [if_neg hk] at this ⊢
      simpa [ordGet] using this
  have hfbeq : ((idx.columns.head?.map fun c => c.id).getD (txt "todo")) =
      fallbackIdOf idx := rfl
  rw [hC]
  simp only [List.nil_append]
  have hunf : (cardFileIdsOf s.files).filter (fun id =>
      !((idx.columns.map fun c =>
        keptList idx (cardFileIdsOf s.files) c.id).flatten.contains id)) =
      unorderedIds idx (cardFileIdsOf s.files) := rfl
  rw [hunf, hfbeq]
  have hfb0 : ordGet o0 (fallbackIdOf idx) =
      some (keptList idx (cardFileIdsOf s.files) (fallbackIdOf idx)) := by
    rw [ho0, if_pos hfbmem]
  obtain ⟨hP1, hP2⟩ := foldl_push_spec (fallbackIdOf idx)
    (unorderedIds idx (cardFileIdsOf s.files)) o0 _ hfb0
  have hord : ∀ k, k ∈ idx.columns.map Column.id →
      ordGet ((unorderedIds idx (cardFileIdsOf s.files)).foldl
        (fun o id => ordSet o (fallbackIdOf idx)
          (((ordGet o (fallbackIdOf idx)).getD []) ++ [id])) o0) k =
      some (keptList idx (cardFileIdsOf s.files) k ++
        (if k = fallbackIdOf idx then
          unorderedIds idx (cardFileIdsOf s.files) else [])) := by
    intro k hk
    by_cases hkf : k = fallbackIdOf idx
    · subst hkf
      rw [hP1, if_pos rfl]
    · rw [hP2 k hkf, ho0, if_pos hk, if_neg hkf, List.append_nil]
  have hnone : ∀ k, k ∉ idx.columns.map Column.id →
      ordGet ((unorderedIds idx (cardFileIdsOf s.files)).foldl
        (fun o id => ordSet o (fallbackIdOf idx)
          (((ordGet o (fallbackIdOf idx)).getD []) ++ [id])) o0) k = none := by
    intro k hk
    have hkf : k ≠ fallbackIdOf idx := fun h => hk (h ▸ hfbmem)
    rw [hP2 k hkf, ho0, if_neg hk]
  have hmemfile : ∀ k id, id ∈ (ordGet ((unorderedIds idx
      (cardFileIdsOf s.files)).foldl
        (fun o id => ordSet o (fallbackIdOf idx)
          (((ordGet o (fallbackIdOf idx)).getD []) ++ [id])) o0) k).getD [] →
      id ∈ cardFileIdsOf s.files := by
    intro k id hid
    by_cases hk : k ∈ idx.columns.map Column.id
    · rw [hord k hk] at hid
      simp only [Option.getD_some] at hid
      rcases List.mem_append.mp hid with h | h
      · rw [keptList, List.mem_filter] at h
        simpa using h.2
      · by_cases hkf : k = fallbackIdOf idx
        · rw [if_pos hkf] at h
          exact (List.mem_filter.mp h).1
        · rw [if_neg hkf] at h
          simp at h
    · rw [hnone k hk] at hid
      simp at hid
  refine ⟨by trivial, hord, hnone, ?_, ⟨hcne, hfbmem⟩, ?_, ?_, ?_, ?_⟩
  · intro c hc id hid
    exact hmemfile c.id id hid
  · intro id hid hnotin
    rw [hP1]
    simp only [Option.getD_some]
    apply List.mem_append_right
    rw [unorderedIds, List.mem_filter]
    refine ⟨hid, ?_⟩
    simp only [Bool.not_eq_true']
    rw [Bool.eq_false_iff]
    intro hcon
    have : id ∈ (idx.columns.map fun c =>
        keptList idx (cardFileIdsOf s.files) c.id).flatten := by
      simpa using hcon
    rw [List.mem_flatten] at this
    obtain ⟨l, hl, hidl⟩ := this
    rw [List.mem_map] at hl
    obtain ⟨c, hc, rfl⟩ := hl
    rw [keptList, List.mem_filter] at hidl
    exact hnotin c hc hidl.1
  · intro hP
    have hcond : (ch0 || !(unorderedIds idx
        (cardFileIdsOf s.files)).isEmpty) = true := by
      rcases hP with h | h
      · rw [hB]
        simp only [Bool.false_or, Bool.or_eq_true]
        left
        rw [List.any_eq_true]
        obtain ⟨c, hc, id, hidl, hidf⟩ := h
        refine ⟨c, hc, ?_⟩
        simp only [Bool.not_eq_true']
        rw [Bool.eq_false_iff]
        intro hall
        rw [List.all_eq_true] at hall
        exact hidf (by simpa using hall id hidl)
      · simp only [Bool.or_eq_true]
        right
        simpa [List.isEmpty_iff] using h
    rw [if_pos hcond]
    rfl
  · intro hP
    push_neg at hP
    have hch : ch0 = false := by
      rw [hB]
      simp only [Bool.false_or]
      rw [Bool.eq_false_iff]
      intro hany
      rw [List.any_eq_true] at hany
      obtain ⟨c, hc, hbit⟩ := hany
      have : ¬ ∀ id ∈ (ordGet idx.order c.id).getD [],
          id ∈ cardFileIdsOf s.files := by
        intro hall
        rw [Bool.not_eq_true'] at hbit
        rw [Bool.eq_false_iff] at hbit
        apply hbit
        rw [List.all_eq_true]
        intro id hidl
        simpa using hall id hidl
      push_neg at this
      obtain ⟨id, hidl, hidf⟩ := this
      exact hidf (hP.1 c hc id hidl)
    have hue : (unorderedIds idx (cardFileIdsOf s.files)).isEmpty = true := by
      rw [List.isEmpty_iff]
      exact hP.2
    rw [if_neg (by simp [hch, hue])]
  · intro id0 hid0
    rw [List.find?_eq_none]
    intro q hq
    rw [List.mem_filterMap] at hq
    obtain ⟨a, ha, hfa⟩ := hq
    rw [Option.map_eq_some'] at hfa
    obtain ⟨cd, _, rfl⟩ := hfa
    have hafile : a ∈ cardFileIdsOf s.files := by
      have hmem := mem_dedupF a _ ha
      rw [List.mem_flatten] at hmem
      obtain ⟨l, hl, hal⟩ := hmem
      rw [List.mem_map] at hl
      obtain ⟨c, _, rfl⟩ := hl
      exact hmemfile c.id a hal
    intro heq
    have haeq : a = id0 := by simpa using heq
    exact hid0 (haeq ▸ hafile)

/-- C3 (witness): the theorem applied to a concrete store whose index
references a missing card file (`gone`) and whose cards directory holds a
file (`stray`) absent from every order list. -/
theorem claim_C3_witness :
    (readStateS ({ index := some (.json (Json.obj [(txt "columns", Json.arr [Json.obj [(txt "id", Json.str (txt "a")), (txt "title", Json.str (txt "A"))], Json.obj [(txt "id", Json.str (txt "b")), (txt "title", Json.str (txt "B"))]]), (txt "order", Json.obj [(txt "a", Json.arr [Json.str (txt "c1"), Json.str (txt "gone")]), (txt "b", Json.arr [])])])), files := [(txt "c1.md", (⟨.file, txt "---\nid: c1\ntitle: T\ncreatedAt: T0\nupdatedAt: T0\n---\nbody", 0, 0⟩ : DirEntry)), (txt "stray.md", (⟨.file, txt "---\nid: stray\ntitle: T\ncreatedAt: T0\nupdatedAt: T0\n---\nbody", 0, 0⟩ : DirEntry))] } : Store)).1.columns = ((⟨[⟨txt "a", txt "A"⟩, ⟨txt "b", txt "B"⟩], [(txt "a", [txt "c1", txt "gone"]), (txt "b", [])]⟩ : IndexData)).columns ∧
    (∀ k, k ∈ ((⟨[⟨txt "a", txt "A"⟩, ⟨txt "b", txt "B"⟩], [(txt "a", [txt "c1", txt "gone"]), (txt "b", [])]⟩ : IndexData)).columns.map Column.id →
      ordGet (readStateS ({ index := some (.json (Json.obj [(txt "columns", Json.arr [Json.obj [(txt "id", Json.str (txt "a")), (txt "title", Json.str (txt "A"))], Json.obj [(txt "id", Json.str (txt "b")), (txt "title", Json.str (txt "B"))]]), (txt "order", Json.obj [(txt "a", Json.arr [Json.str (txt "c1"), Json.str (txt "gone")]), (txt "b", Json.arr [])])])), files := [(txt "c1.md", (⟨.file, txt "---\nid: c1\ntitle: T\ncreatedAt: T0\nupdatedAt: T0\n---\nbody", 0, 0⟩ : DirEntry)), (txt "stray.md", (⟨.file, txt "---\nid: stray\ntitle: T\ncreatedAt: T0\nupdatedAt: T0\n---\nbody", 0, 0⟩ : DirEntry))] } : Store)).1.order k =
        some (keptList (⟨[⟨txt "a", txt "A"⟩, ⟨txt "b", txt "B"⟩], [(txt "a", [txt "c1", txt "gone"]), (txt "b", [])]⟩ : IndexData) (cardFileIdsOf (({ index := some (.json (Json.obj [(txt "columns", Json.arr [Json.obj [(txt "id", Json.str (txt "a")), (txt "title", Json.str (txt "A"))], Json.obj [(txt "id", Json.str (txt "b")), (txt "title", Json.str (txt "B"))]]), (txt "order", Json.obj [(txt "a", Json.arr [Json.str (txt "c1"), Json.str (txt "gone")]), (txt "b", Json.arr [])])])), files := [(txt "c1.md", (⟨.file, txt "---\nid: c1\ntitle: T\ncreatedAt: T0\nupdatedAt: T0\n---\nbody", 0, 0⟩ : DirEntry)), (txt "stray.md", (⟨.file, txt "---\nid: stray\ntitle: T\ncreatedAt: T0\nupdatedAt: T0\n---\nbody", 0, 0⟩ : DirEntry))] } : Store)).files) k ++
          (if k = fallbackIdOf (⟨[⟨txt "a", txt "A"⟩, ⟨txt "b", txt "B"⟩], [(txt "a", [txt "c1", txt "gone"]), (txt "b", [])]⟩ : IndexData) then
            unorderedIds (⟨[⟨txt "a", txt "A"⟩, ⟨txt "b", txt "B"⟩], [(txt "a", [txt "c1", txt "gone"]), (txt "b", [])]⟩ : IndexData) (cardFileIdsOf (({ index := some (.json (Json.obj [(txt "columns", Json.arr [Json.obj [(txt "id", Json.str (txt "a")), (txt "title", Json.str (txt "A"))], Json.obj [(txt "id", Json.str (txt "b")), (txt "title", Json.str (txt "B"))]]), (txt "order", Json.obj [(txt "a", Json.arr [Json.str (txt "c1"), Json.str (txt "gone")]), (txt "b", Json.arr [])])])), files := [(txt "c1.md", (⟨.file, txt "---\nid: c1\ntitle: T\ncreatedAt: T0\nupdatedAt: T0\n---\nbody", 0, 0⟩ : DirEntry)), (txt "stray.md", (⟨.file, txt "---\nid: stray\ntitle: T\ncreatedAt: T0\nupdatedAt: T0\n---\nbody", 0, 0⟩ : DirEntry))] } : Store)).files) else []))) ∧
    (∀ k, k ∉ ((⟨[⟨txt "a", txt "A"⟩, ⟨txt "b", txt "B"⟩], [(txt "a", [txt "c1", txt "gone"]), (txt "b", [])]⟩ : IndexData)).columns.map Column.id →
      ordGet (readStateS ({ index := some (.json (Json.obj [(txt "columns", Json.arr [Json.obj [(txt "id", Json.str (txt "a")), (txt "title", Json.str (txt "A"))], Json.obj [(txt "id", Json.str (txt "b")), (txt "title", Json.str (txt "B"))]]), (txt "order", Json.obj [(txt "a", Json.arr [Json.str (txt "c1"), Json.str (txt "gone")]), (txt "b", Json.arr [])])])), files := [(txt "c1.md", (⟨.file, txt "---\nid: c1\ntitle: T\ncreatedAt: T0\nupdatedAt: T0\n---\nbody", 0, 0⟩ : DirEntry)), (txt "stray.md", (⟨.file, txt "---\nid: stray\ntitle: T\ncreatedAt: T0\nupdatedAt: T0\n---\nbody", 0, 0⟩ : DirEntry))] } : Store)).1.order k = none) ∧
    (∀ c ∈ ((⟨[⟨txt "a", txt "A"⟩, ⟨txt "b", txt "B"⟩], [(txt "a", [txt "c1", txt "gone"]), (txt "b", [])]⟩ : IndexData)).columns,
      ∀ id ∈ (ordGet (readStateS ({ index := some (.json (Json.obj [(txt "columns", Json.arr [Json.obj [(txt "id", Json.str (txt "a")), (txt "title", Json.str (txt "A"))], Json.obj [(txt "id", Json.str (txt "b")), (txt "title", Json.str (txt "B"))]]), (txt "order", Json.obj [(txt "a", Json.arr [Json.str (txt "c1"), Json.str (txt "gone")]), (txt "b", Json.arr [])])])), files := [(txt "c1.md", (⟨.file, txt "---\nid: c1\ntitle: T\ncreatedAt: T0\nupdatedAt: T0\n---\nbody", 0, 0⟩ : DirEntry)), (txt "stray.md", (⟨.file, txt "---\nid: stray\ntitle: T\ncreatedAt: T0\nupdatedAt: T0\n---\nbody", 0, 0⟩ : DirEntry))] } : Store)).1.order c.id).getD [],
      id ∈ cardFileIdsOf (({ index := some (.json (Json.obj [(txt "columns", Json.arr [Json.obj [(txt "id", Json.str (txt "a")), (txt "title", Json.str (txt "A"))], Json.obj [(txt "id", Json.str (txt "b")), (txt "title", Json.str (txt "B"))]]), (txt "order", Json.obj [(txt "a", Json.arr [Json.str (txt "c1"), Json.str (txt "gone")]), (txt "b", Json.arr [])])])), files := [(txt "c1.md", (⟨.file, txt "---\nid: c1\ntitle: T\ncreatedAt: T0\nupdatedAt: T0\n---\nbody", 0, 0⟩ : DirEntry)), (txt "stray.md", (⟨.file, txt "---\nid: stray\ntitle: T\ncreatedAt: T0\nupdatedAt: T0\n---\nbody", 0, 0⟩ : DirEntry))] } : Store)).files) ∧
    (((⟨[⟨txt "a", txt "A"⟩, ⟨txt "b", txt "B"⟩], [(txt "a", [txt "c1", txt "gone"]), (txt "b", [])]⟩ : IndexData)).columns ≠ [] ∧
      fallbackIdOf (⟨[⟨txt "a", txt "A"⟩, ⟨txt "b", txt "B"⟩], [(txt "a", [txt "c1", txt "gone"]), (txt "b", [])]⟩ : IndexData) ∈ ((⟨[⟨txt "a", txt "A"⟩, ⟨txt "b", txt "B"⟩], [(txt "a", [txt "c1", txt "gone"]), (txt "b", [])]⟩ : IndexData)).columns.map Column.id) ∧
    (∀ id ∈ cardFileIdsOf (({ index := some (.json (Json.obj [(txt "columns", Json.arr [Json.obj [(txt "id", Json.str (txt "a")), (txt "title", Json.str (txt "A"))], Json.obj [(txt "id", Json.str (txt "b")), (txt "title", Json.str (txt "B"))]]), (txt "order", Json.obj [(txt "a", Json.arr [Json.str (txt "c1"), Json.str (txt "gone")]), (txt "b", Json.arr [])])])), files := [(txt "c1.md", (⟨.file, txt "---\nid: c1\ntitle: T\ncreatedAt: T0\nupdatedAt: T0\n---\nbody", 0, 0⟩ : DirEntry)), (txt "stray.md", (⟨.file, txt "---\nid: stray\ntitle: T\ncreatedAt: T0\nupdatedAt: T0\n---\nbody", 0, 0⟩ : DirEntry))] } : Store)).files,
      (∀ c ∈ ((⟨[⟨txt "a", txt "A"⟩, ⟨txt "b", txt "B"⟩], [(txt "a", [txt "c1", txt "gone"]), (txt "b", [])]⟩ : IndexData)).columns,
        id ∉ (ordGet ((⟨[⟨txt "a", txt "A"⟩, ⟨txt "b", txt "B"⟩], [(txt "a", [txt "c1", txt "gone"]), (txt "b", [])]⟩ : IndexData)).order c.id).getD []) →
      id ∈ (ordGet (readStateS ({ index := some (.json (Json.obj [(txt "columns", Json.arr [Json.obj [(txt "id", Json.str (txt "a")), (txt "title", Json.str (txt "A"))], Json.obj [(txt "id", Json.str (txt "b")), (txt "title", Json.str (txt "B"))]]), (txt "order", Json.obj [(txt "a", Json.arr [Json.str (txt "c1"), Json.str (txt "gone")]), (txt "b", Json.arr [])])])), files := [(txt "c1.md", (⟨.file, txt "---\nid: c1\ntitle: T\ncreatedAt: T0\nupdatedAt: T0\n---\nbody", 0, 0⟩ : DirEntry)), (txt "stray.md", (⟨.file, txt "---\nid: stray\ntitle: T\ncreatedAt: T0\nupdatedAt: T0\n---\nbody", 0, 0⟩ : DirEntry))] } : Store)).1.order
        (fallbackIdOf (⟨[⟨txt "a", txt "A"⟩, ⟨txt "b", txt "B"⟩], [(txt "a", [txt "c1", txt "gone"]), (txt "b", [])]⟩ : IndexData))).getD []) ∧
    (((∃ c ∈ ((⟨[⟨txt "a", txt "A"⟩, ⟨txt "b", txt "B"⟩], [(txt "a", [txt "c1", txt "gone"]), (txt "b", [])]⟩ : IndexData)).columns, ∃ id ∈ (ordGet ((⟨[⟨txt "a", txt "A"⟩, ⟨txt "b", txt "B"⟩], [(txt "a", [txt "c1", txt "gone"]), (txt "b", [])]⟩ : IndexData)).order c.id).getD [],
        id ∉ cardFileIdsOf (({ index := some (.json (Json.obj [(txt "columns", Json.arr [Json.obj [(txt "id", Json.str (txt "a")), (txt "title", Json.str (txt "A"))], Json.obj [(txt "id", Json.str (txt "b")), (txt "title", Json.str (txt "B"))]]), (txt "order", Json.obj [(txt "a", Json.arr [Json.str (txt "c1"), Json.str (txt "gone")]), (txt "b", Json.arr [])])])), files := [(txt "c1.md", (⟨.file, txt "---\nid: c1\ntitle: T\ncreatedAt: T0\nupdatedAt: T0\n---\nbody", 0, 0⟩ : DirEntry)), (txt "stray.md", (⟨.file, txt "---\nid: stray\ntitle: T\ncreatedAt: T0\nupdatedAt: T0\n---\nbody", 0, 0⟩ : DirEntry))] } : Store)).files) ∨
        unorderedIds (⟨[⟨txt "a", txt "A"⟩, ⟨txt "b", txt "B"⟩], [(txt "a", [txt "c1", txt "gone"]), (txt "b", [])]⟩ : IndexData) (cardFileIdsOf (({ index := some (.json (Json.obj [(txt "columns", Json.arr [Json.obj [(txt "id", Json.str (txt "a")), (txt "title", Json.str (txt "A"))], Json.obj [(txt "id", Json.str (txt "b")), (txt "title", Json.str (txt "B"))]]), (txt "order", Json.obj [(txt "a", Json.arr [Json.str (txt "c1"), Json.str (txt "gone")]), (txt "b", Json.arr [])])])), files := [(txt "c1.md", (⟨.file, txt "---\nid: c1\ntitle: T\ncreatedAt: T0\nupdatedAt: T0\n---\nbody", 0, 0⟩ : DirEntry)), (txt "stray.md", (⟨.file, txt "---\nid: stray\ntitle: T\ncreatedAt: T0\nupdatedAt: T0\n---\nbody", 0, 0⟩ : DirEntry))] } : Store)).files) ≠ []) →
      (readStateS ({ index := some (.json (Json.obj [(txt "columns", Json.arr [Json.obj [(txt "id", Json.str (txt "a")), (txt "title", Json.str (txt "A"))], Json.obj [(txt "id", Json.str (txt "b")), (txt "title", Json.str (txt "B"))]]), (txt "order", Json.obj [(txt "a", Json.arr [Json.str (txt "c1"), Json.str (txt "gone")]), (txt "b", Json.arr [])])])), files := [(txt "c1.md", (⟨.file, txt "---\nid: c1\ntitle: T\ncreatedAt: T0\nupdatedAt: T0\n---\nbody", 0, 0⟩ : DirEntry)), (txt "stray.md", (⟨.file, txt "---\nid: stray\ntitle: T\ncreatedAt: T0\nupdatedAt: T0\n---\nbody", 0, 0⟩ : DirEntry))] } : Store)).2.index =
        some (.json (jsonOfIndex
          ⟨((⟨[⟨txt "a", txt "A"⟩, ⟨txt "b", txt "B"⟩], [(txt "a", [txt "c1", txt "gone"]), (txt "b", [])]⟩ : IndexData)).columns, (readStateS ({ index := some (.json (Json.obj [(txt "columns", Json.arr [Json.obj [(txt "id", Json.str (txt "a")), (txt "title", Json.str (txt "A"))], Json.obj [(txt "id", Json.str (txt "b")), (txt "title", Json.str (txt "B"))]]), (txt "order", Json.obj [(txt "a", Json.arr [Json.str (txt "c1"), Json.str (txt "gone")]), (txt "b", Json.arr [])])])), files := [(txt "c1.md", (⟨.file, txt "---\nid: c1\ntitle: T\ncreatedAt: T0\nupdatedAt: T0\n---\nbody", 0, 0⟩ : DirEntry)), (txt "stray.md", (⟨.file, txt "---\nid: stray\ntitle: T\ncreatedAt: T0\nupdatedAt: T0\n---\nbody", 0, 0⟩ : DirEntry))] } : Store)).1.order⟩))) ∧
    ((¬ ((∃ c ∈ ((⟨[⟨txt "a", txt "A"⟩, ⟨txt "b", txt "B"⟩], [(txt "a", [txt "c1", txt "gone"]), (txt "b", [])]⟩ : IndexData)).columns,
        ∃ id ∈ (ordGet ((⟨[⟨txt "a", txt "A"⟩, ⟨txt "b", txt "B"⟩], [(txt "a", [txt "c1", txt "gone"]), (txt "b", [])]⟩ : IndexData)).order c.id).getD [],
        id ∉ cardFileIdsOf (({ index := some (.json (Json.obj [(txt "columns", Json.arr [Json.obj [(txt "id", Json.str (txt "a")), (txt "title", Json.str (txt "A"))], Json.obj [(txt "id", Json.str (txt "b")), (txt "title", Json.str (txt "B"))]]), (txt "order", Json.obj [(txt "a", Json.arr [Json.str (txt "c1"), Json.str (txt "gone")]), (txt "b", Json.arr [])])])), files := [(txt "c1.md", (⟨.file, txt "---\nid: c1\ntitle: T\ncreatedAt: T0\nupdatedAt: T0\n---\nbody", 0, 0⟩ : DirEntry)), (txt "stray.md", (⟨.file, txt "---\nid: stray\ntitle: T\ncreatedAt: T0\nupdatedAt: T0\n---\nbody", 0, 0⟩ : DirEntry))] } : Store)).files) ∨
        unorderedIds (⟨[⟨txt "a", txt "A"⟩, ⟨txt "b", txt "B"⟩], [(txt "a", [txt "c1", txt "gone"]), (txt "b", [])]⟩ : IndexData) (cardFileIdsOf (({ index := some (.json (Json.obj [(txt "columns", Json.arr [Json.obj [(txt "id", Json.str (txt "a")), (txt "title", Json.str (txt "A"))], Json.obj [(txt "id", Json.str (txt "b")), (txt "title", Json.str (txt "B"))]]), (txt "order", Json.obj [(txt "a", Json.arr [Json.str (txt "c1"), Json.str (txt "gone")]), (txt "b", Json.arr [])])])), files := [(txt "c1.md", (⟨.file, txt "---\nid: c1\ntitle: T\ncreatedAt: T0\nupdatedAt: T0\n---\nbody", 0, 0⟩ : DirEntry)), (txt "stray.md", (⟨.file, txt "---\nid: stray\ntitle: T\ncreatedAt: T0\nupdatedAt: T0\n---\nbody", 0, 0⟩ : DirEntry))] } : Store)).files) ≠ [])) →
      (readStateS ({ index := some (.json (Json.obj [(txt "columns", Json.arr [Json.obj [(txt "id", Json.str (txt "a")), (txt "title", Json.str (txt "A"))], Json.obj [(txt "id", Json.str (txt "b")), (txt "title", Json.str (txt "B"))]]), (txt "order", Json.obj [(txt "a", Json.arr [Json.str (txt "c1"), Json.str (txt "gone")]), (txt "b", Json.arr [])])])), files := [(txt "c1.md", (⟨.file, txt "---\nid: c1\ntitle: T\ncreatedAt: T0\nupdatedAt: T0\n---\nbody", 0, 0⟩ : DirEntry)), (txt "stray.md", (⟨.file, txt "---\nid: stray\ntitle: T\ncreatedAt: T0\nupdatedAt: T0\n---\nbody", 0, 0⟩ : DirEntry))] } : Store)).2 = ({ index := some (.json (Json.obj [(txt "columns", Json.arr [Json.obj [(txt "id", Json.str (txt "a")), (txt "title", Json.str (txt "A"))], Json.obj [(txt "id", Json.str (txt "b")), (txt "title", Json.str (txt "B"))]]), (txt "order", Json.obj [(txt "a", Json.arr [Json.str (txt "c1"), Json.str (txt "gone")]), (txt "b", Json.arr [])])])), files := [(txt "c1.md", (⟨.file, txt "---\nid: c1\ntitle: T\ncreatedAt: T0\nupdatedAt: T0\n---\nbody", 0, 0⟩ : DirEntry)), (txt "stray.md", (⟨.file, txt "---\nid: stray\ntitle: T\ncreatedAt: T0\nupdatedAt: T0\n---\nbody", 0, 0⟩ : DirEntry))] } : Store)) ∧
    (∀ id, id ∉ cardFileIdsOf (({ index := some (.json (Json.obj [(txt "columns", Json.arr [Json.obj [(txt "id", Json.str (txt "a")), (txt "title", Json.str (txt "A"))], Json.obj [(txt "id", Json.str (txt "b")), (txt "title", Json.str (txt "B"))]]), (txt "order", Json.obj [(txt "a", Json.arr [Json.str (txt "c1"), Json.str (txt "gone")]), (txt "b", Json.arr [])])])), files := [(txt "c1.md", (⟨.file, txt "---\nid: c1\ntitle: T\ncreatedAt: T0\nupdatedAt: T0\n---\nbody", 0, 0⟩ : DirEntry)), (txt "stray.md", (⟨.file, txt "---\nid: stray\ntitle: T\ncreatedAt: T0\nupdatedAt: T0\n---\nbody", 0, 0⟩ : DirEntry))] } : Store)).files →
      (readStateS ({ index := some (.json (Json.obj [(txt "columns", Json.arr [Json.obj [(txt "id", Json.str (txt "a")), (txt "title", Json.str (txt "A"))], Json.obj [(txt "id", Json.str (txt "b")), (txt "title", Json.str (txt "B"))]]), (txt "order", Json.obj [(txt "a", Json.arr [Json.str (txt "c1"), Json.str (txt "gone")]), (txt "b", Json.arr [])])])), files := [(txt "c1.md", (⟨.file, txt "---\nid: c1\ntitle: T\ncreatedAt: T0\nupdatedAt: T0\n---\nbody", 0, 0⟩ : DirEntry)), (txt "stray.md", (⟨.file, txt "---\nid: stray\ntitle: T\ncreatedAt: T0\nupdatedAt: T0\n---\nbody", 0, 0⟩ : DirEntry))] } : Store)).1.cards.find? (·.1 == id) = none) ∧
    ordGet (readStateS ({ index := some (.json (Json.obj [(txt "columns", Json.arr [Json.obj [(txt "id", Json.str (txt "a")), (txt "title", Json.str (txt "A"))], Json.obj [(txt "id", Json.str (txt "b")), (txt "title", Json.str (txt "B"))]]), (txt "order", Json.obj [(txt "a", Json.arr [Json.str (txt "c1"), Json.str (txt "gone")]), (txt "b", Json.arr [])])])), files := [(txt "c1.md", (⟨.file, txt "---\nid: c1\ntitle: T\ncreatedAt: T0\nupdatedAt: T0\n---\nbody", 0, 0⟩ : DirEntry)), (txt "stray.md", (⟨.file, txt "---\nid: stray\ntitle: T\ncreatedAt: T0\nupdatedAt: T0\n---\nbody", 0, 0⟩ : DirEntry))] } : Store)).1.order (txt "a") =
      some [txt "c1", txt "stray"] :=
  ⟨(claim_C3_readState ({ index := some (.json (Json.obj [(txt "columns", Json.arr [Json.obj [(txt "id", Json.str (txt "a")), (txt "title", Json.str (txt "A"))], Json.obj [(txt "id", Json.str (txt "b")), (txt "title", Json.str (txt "B"))]]), (txt "order", Json.obj [(txt "a", Json.arr [Json.str (txt "c1"), Json.str (txt "gone")]), (txt "b", Json.arr [])])])), files := [(txt "c1.md", (⟨.file, txt "---\nid: c1\ntitle: T\ncreatedAt: T0\nupdatedAt: T0\n---\nbody", 0, 0⟩ : DirEntry)), (txt "stray.md", (⟨.file, txt "---\nid: stray\ntitle: T\ncreatedAt: T0\nupdatedAt: T0\n---\nbody", 0, 0⟩ : DirEntry))] } : Store) (Json.obj [(txt "columns", Json.arr [Json.obj [(txt "id", Json.str (txt "a")), (txt "title", Json.str (txt "A"))], Json.obj [(txt "id", Json.str (txt "b")), (txt "title", Json.str (txt "B"))]]), (txt "order", Json.obj [(txt "a", Json.arr [Json.str (txt "c1"), Json.str (txt "gone")]), (txt "b", Json.arr [])])]) (⟨[⟨txt "a", txt "A"⟩, ⟨txt "b", txt "B"⟩], [(txt "a", [txt "c1", txt "gone"]), (txt "b", [])]⟩ : IndexData) rfl rfl).1,
   (claim_C3_readState ({ index := some (.json (Json.obj [(txt "columns", Json.arr [Json.obj [(txt "id", Json.str (txt "a")), (txt "title", Json.str (txt "A"))], Json.obj [(txt "id", Json.str (txt "b")), (txt "title", Json.str (txt "B"))]]), (txt "order", Json.obj [(txt "a", Json.arr [Json.str (txt "c1"), Json.str (txt "gone")]), (txt "b", Json.arr [])])])), files := [(txt "c1.md", (⟨.file, txt "---\nid: c1\ntitle: T\ncreatedAt: T0\nupdatedAt: T0\n---\nbody", 0, 0⟩ : DirEntry)), (txt "stray.md", (⟨.file, txt "---\nid: stray\ntitle: T\ncreatedAt: T0\nupdatedAt: T0\n---\nbody", 0, 0⟩ : DirEntry))] } : Store) (Json.obj [(txt "columns", Json.arr [Json.obj [(txt "id", Json.str (txt "a")), (txt "title", Json.str (txt "A"))], Json.obj [(txt "id", Json.str (txt "b")), (txt "title", Json.str (txt "B"))]]), (txt "order", Json.obj [(txt "a", Json.arr [Json.str (txt "c1"), Json.str (txt "gone")]), (txt "b", Json.arr [])])]) (⟨[⟨txt "a", txt "A"⟩, ⟨txt "b", txt "B"⟩], [(txt "a", [txt "c1", txt "gone"]), (txt "b", [])]⟩ : IndexData) rfl rfl).2.1,
   (claim_C3_readState ({ index := some (.json (Json.obj [(txt "columns", Json.arr [Json.obj [(txt "id", Json.str (txt "a")), (txt "title", Json.str (txt "A"))], Json.obj [(txt "id", Json.str (txt "b")), (txt "title", Json.str (txt "B"))]]), (txt "order", Json.obj [(txt "a", Json.arr [Json.str (txt "c1"), Json.str (txt "gone")]), (txt "b", Json.arr [])])])), files := [(txt "c1.md", (⟨.file, txt "---\nid: c1\ntitle: T\ncreatedAt: T0\nupdatedAt: T0\n---\nbody", 0, 0⟩ : DirEntry)), (txt "stray.md", (⟨.file, txt "---\nid: stray\ntitle: T\ncreatedAt: T0\nupdatedAt: T0\n---\nbody", 0, 0⟩ : DirEntry))] } : Store) (Json.obj [(txt "columns", Json.arr [Json.obj [(txt "id", Json.str (txt "a")), (txt "title", Json.str (txt "A"))], Json.obj [(txt "id", Json.str (txt "b")), (txt "title", Json.str (txt "B"))]]), (txt "order", Json.obj [(txt "a", Json.arr [Json.str (txt "c1"), Json.str (txt "gone")]), (txt "b", Json.arr [])])]) (⟨[⟨txt "a", txt "A"⟩, ⟨txt "b", txt "B"⟩], [(txt "a", [txt "c1", txt "gone"]), (txt "b", [])]⟩ : IndexData) rfl rfl).2.2.1,
   (claim_C3_readState ({ index := some (.json (Json.obj [(txt "columns", Json.arr [Json.obj [(txt "id", Json.str (txt "a")), (txt "title", Json.str (txt "A"))], Json.obj [(txt "id", Json.str (txt "b")), (txt "title", Json.str (txt "B"))]]), (txt "order", Json.obj [(txt "a", Json.arr [Json.str (txt "c1"), Json.str (txt "gone")]), (txt "b", Json.arr [])])])), files := [(txt "c1.md", (⟨.file, txt "---\nid: c1\ntitle: T\ncreatedAt: T0\nupdatedAt: T0\n---\nbody", 0, 0⟩ : DirEntry)), (txt "stray.md", (⟨.file, txt "---\nid: stray\ntitle: T\ncreatedAt: T0\nupdatedAt: T0\n---\nbody", 0, 0⟩ : DirEntry))] } : Store) (Json.obj [(txt "columns", Json.arr [Json.obj [(txt "id", Json.str (txt "a")), (txt "title", Json.str (txt "A"))], Json.obj [(txt "id", Json.str (txt "b")), (txt "title", Json.str (txt "B"))]]), (txt "order", Json.obj [(txt "a", Json.arr [Json.str (txt "c1"), Json.str (txt "gone")]), (txt "b", Json.arr [])])]) (⟨[⟨txt "a", txt "A"⟩, ⟨txt "b", txt "B"⟩], [(txt "a", [txt "c1", txt "gone"]), (txt "b", [])]⟩ : IndexData) rfl rfl).2.2.2.1,
   (claim_C3_readState ({ index := some (.json (Json.obj [(txt "columns", Json.arr [Json.obj [(txt "id", Json.str (txt "a")), (txt "title", Json.str (txt "A"))], Json.obj [(txt "id", Json.str (txt "b")), (txt "title", Json.str (txt "B"))]]), (txt "order", Json.obj [(txt "a", Json.arr [Json.str (txt "c1"), Json.str (txt "gone")]), (txt "b", Json.arr [])])])), files := [(txt "c1.md", (⟨.file, txt "---\nid: c1\ntitle: T\ncreatedAt: T0\nupdatedAt: T0\n---\nbody", 0, 0⟩ : DirEntry)), (txt "stray.md", (⟨.file, txt "---\nid: stray\ntitle: T\ncreatedAt: T0\nupdatedAt: T0\n---\nbody", 0, 0⟩ : DirEntry))] } : Store) (Json.obj [(txt "columns", Json.arr [Json.obj [(txt "id", Json.str (txt "a")), (txt "title", Json.str (txt "A"))], Json.obj [(txt "id", Json.str (txt "b")), (txt "title", Json.str (txt "B"))]]), (txt "order", Json.obj [(txt "a", Json.arr [Json.str (txt "c1"), Json.str (txt "gone")]), (txt "b", Json.arr [])])]) (⟨[⟨txt "a", txt "A"⟩, ⟨txt "b", txt "B"⟩], [(txt "a", [txt "c1", txt "gone"]), (txt "b", [])]⟩ : IndexData) rfl rfl).2.2.2.2.1,
   (claim_C3_readState ({ index := some (.json (Json.obj [(txt "columns", Json.arr [Json.obj [(txt "id", Json.str (txt "a")), (txt "title", Json.str (txt "A"))], Json.obj [(txt "id", Json.str (txt "b")), (txt "title", Json.str (txt "B"))]]), (txt "order", Json.obj [(txt "a", Json.arr [Json.str (txt "c1"), Json.str (txt "gone")]), (txt "b", Json.arr [])])])), files := [(txt "c1.md", (⟨.file, txt "---\nid: c1\ntitle: T\ncreatedAt: T0\nupdatedAt: T0\n---\nbody", 0, 0⟩ : DirEntry)), (txt "stray.md", (⟨.file, txt "---\nid: stray\ntitle: T\ncreatedAt: T0\nupdatedAt: T0\n---\nbody", 0, 0⟩ : DirEntry))] } : Store) (Json.obj [(txt "columns", Json.arr [Json.obj [(txt "id", Json.str (txt "a")), (txt "title", Json.str (txt "A"))], Json.obj [(txt "id", Json.str (txt "b")), (txt "title", Json.str (txt "B"))]]), (txt "order", Json.obj [(txt "a", Json.arr [Json.str (txt "c1"), Json.str (txt "gone")]), (txt "b", Json.arr [])])]) (⟨[⟨txt "a", txt "A"⟩, ⟨txt "b", txt "B"⟩], [(txt "a", [txt "c1", txt "gone"]), (txt "b", [])]⟩ : IndexData) rfl rfl).2.2.2.2.2.1,
   (claim_C3_readState ({ index := some (.json (Json.obj [(txt "columns", Json.arr [Json.obj [(txt "id", Json.str (txt "a")), (txt "title", Json.str (txt "A"))], Json.obj [(txt "id", Json.str (txt "b")), (txt "title", Json.str (txt "B"))]]), (txt "order", Json.obj [(txt "a", Json.arr [Json.str (txt "c1"), Json.str (txt "gone")]), (txt "b", Json.arr [])])])), files := [(txt "c1.md", (⟨.file, txt "---\nid: c1\ntitle: T\ncreatedAt: T0\nupdatedAt: T0\n---\nbody", 0, 0⟩ : DirEntry)), (txt "stray.md", (⟨.file, txt "---\nid: stray\ntitle: T\ncreatedAt: T0\nupdatedAt: T0\n---\nbody", 0, 0⟩ : DirEntry))] } : Store) (Json.obj [(txt "columns", Json.arr [Json.obj [(txt "id", Json.str (txt "a")), (txt "title", Json.str (txt "A"))], Json.obj [(txt "id", Json.str (txt "b")), (txt "title", Json.str (txt "B"))]]), (txt "order", Json.obj [(txt "a", Json.arr [Json.str (txt "c1"), Json.str (txt "gone")]), (txt "b", Json.arr [])])]) (⟨[⟨txt "a", txt "A"⟩, ⟨txt "b", txt "B"⟩], [(txt "a", [txt "c1", txt "gone"]), (txt "b", [])]⟩ : IndexData) rfl rfl).2.2.2.2.2.2.1,
   (claim_C3_readState ({ index := some (.json (Json.obj [(txt "columns", Json.arr [Json.obj [(txt "id", Json.str (txt "a")), (txt "title", Json.str (txt "A"))], Json.obj [(txt "id", Json.str (txt "b")), (txt "title", Json.str (txt "B"))]]), (txt "order", Json.obj [(txt "a", Json.arr [Json.str (txt "c1"), Json.str (txt "gone")]), (txt "b", Json.arr [])])])), files := [(txt "c1.md", (⟨.file, txt "---\nid: c1\ntitle: T\ncreatedAt: T0\nupdatedAt: T0\n---\nbody", 0, 0⟩ : DirEntry)), (txt "stray.md", (⟨.file, txt "---\nid: stray\ntitle: T\ncreatedAt: T0\nupdatedAt: T0\n---\nbody", 0, 0⟩ : DirEntry))] } : Store) (Json.obj [(txt "columns", Json.arr [Json.obj [(txt "id", Json.str (txt "a")), (txt "title", Json.str (txt "A"))], Json.obj [(txt "id", Json.str (txt "b")), (txt "title", Json.str (txt "B"))]]), (txt "order", Json.obj [(txt "a", Json.arr [Json.str (txt "c1"), Json.str (txt "gone")]), (txt "b", Json.arr [])])]) (⟨[⟨txt "a", txt "A"⟩, ⟨txt "b", txt "B"⟩], [(txt "a", [txt "c1", txt "gone"]), (txt "b", [])]⟩ : IndexData) rfl rfl).2.2.2.2.2.2.2.1,
   (claim_C3_readState ({ index := some (.json (Json.obj [(txt "columns", Json.arr [Json.obj [(txt "id", Json.str (txt "a")), (txt "title", Json.str (txt "A"))], Json.obj [(txt "id", Json.str (txt "b")), (txt "title", Json.str (txt "B"))]]), (txt "order", Json.obj [(txt "a", Json.arr [Json.str (txt "c1"), Json.str (txt "gone")]), (txt "b", Json.arr [])])])), files := [(txt "c1.md", (⟨.file, txt "---\nid: c1\ntitle: T\ncreatedAt: T0\nupdatedAt: T0\n---\nbody", 0, 0⟩ : DirEntry)), (txt "stray.md", (⟨.file, txt "---\nid: stray\ntitle: T\ncreatedAt: T0\nupdatedAt: T0\n---\nbody", 0, 0⟩ : DirEntry))] } : Store) (Json.obj [(txt "columns", Json.arr [Json.obj [(txt "id", Json.str (txt "a")), (txt "title", Json.str (txt "A"))], Json.obj [(txt "id", Json.str (txt "b")), (txt "title", Json.str (txt "B"))]]), (txt "order", Json.obj [(txt "a", Json.arr [Json.str (txt "c1"), Json.str (txt "gone")]), (txt "b", Json.arr [])])]) (⟨[⟨txt "a", txt "A"⟩, ⟨txt "b", txt "B"⟩], [(txt "a", [txt "c1", txt "gone"]), (txt "b", [])]⟩ : IndexData) rfl rfl).2.2.2.2.2.2.2.2,
   by decide⟩

end ReadState

end Kanban
